import Mathlib

/-!
Verification of the jobspec transform (src/jobspec/parse.go).

The transform walks an already-tokenized generic configuration tree and
produces a typed job model.  We embed the generic tree (`Node`, `ObjItem`),
the typed model (`Job`, `TaskGroup`, `Task`, ...), and the parse functions
of parse.go as executable Lean definitions, and prove the spec's claims
about them.

Go error returns are modelled by `PRes`; a Go runtime panic (such as an
out-of-bounds index) is modelled by the distinguished outcome `PRes.panic`,
which propagates past every error-prefixing boundary.
-/

namespace Jobspec

/-- Generic configuration tree produced by the external tokenizer: an object
is an ordered list of items, each item carrying its key chain (block names
and labels) and a value that is either a nested object, a scalar, or a list. -/
inductive Node where
  | obj : List (List String × Node) → Node
  | str : String → Node
  | num : Int → Node
  | bool : Bool → Node
  | list : List Node → Node
deriving Repr

/-- One item of an object: the key chain (first the block or attribute name,
then any labels) paired with the item value. -/
abbrev ObjItem := List String × Node

/-- Result of a parse step: success, a Go error value, or a Go runtime
panic.  A panic is not an error value: it propagates unchanged through the
error-prefixing done at each return boundary. -/
inductive PRes (α : Type) where
  | ok : α → PRes α
  | err : String → PRes α
  | panic : String → PRes α
deriving Repr

namespace PRes

def bind : PRes α → (α → PRes β) → PRes β
  | ok a, f => f a
  | err e, _ => err e
  | panic p, _ => panic p

instance : Monad PRes where
  pure := ok
  bind := bind

@[simp] theorem bind_ok (a : α) (f : α → PRes β) : bind (ok a) f = f a := rfl
@[simp] theorem bind_err (e : String) (f : α → PRes β) : bind (err e) f = err e := rfl
@[simp] theorem bind_panic (p : String) (f : α → PRes β) : bind (panic p) f = panic p := rfl
@[simp] theorem monad_bind_ok (a : α) (f : α → PRes β) : (ok a) >>= f = f a := rfl
@[simp] theorem monad_bind_err (e : String) (f : α → PRes β) : (err e : PRes α) >>= f = err e := rfl
@[simp] theorem monad_bind_panic (p : String) (f : α → PRes β) : (panic p : PRes α) >>= f = panic p := rfl
@[simp] theorem pure_eq_ok (a : α) : (pure a : PRes α) = ok a := rfl

/-- The step did not succeed (Go error value, as opposed to a panic). -/
def isErr : PRes α → Prop
  | err _ => True
  | _ => False

end PRes

/-- Model of multierror.Prefix: wrap an error message with a hierarchical
path prefix.  A panic is not an error value and is left untouched. -/
def wrapErr (p : String) : PRes α → PRes α
  | .ok a => .ok a
  | .err e => .err (p ++ " " ++ e)
  | .panic s => .panic s

@[simp] theorem wrapErr_ok (p : String) (a : α) : wrapErr p (.ok a) = .ok a := rfl
@[simp] theorem wrapErr_err (p e : String) : (wrapErr p (.err e) : PRes α) = .err (p ++ " " ++ e) := rfl
@[simp] theorem wrapErr_panic (p s : String) : (wrapErr p (.panic s) : PRes α) = .panic s := rfl

/-- Model of reading list.Items[0] in Go: on an empty list this is an
out-of-bounds index, a runtime panic. -/
def itemsHead (l : List ObjItem) : PRes ObjItem :=
  match l with
  | [] => .panic "runtime error: index out of range"
  | x :: _ => .ok x

/-- ASCII lowering of one character. -/
def charLower (c : Char) : Char :=
  if 'A' ≤ c && c ≤ 'Z' then Char.ofNat (c.toNat + 32) else c

/-- ASCII string lowering (the case folding applied to block keys and port
labels; every key and every pattern-validated label is ASCII). -/
def strLower (s : String) : String :=
  ⟨s.data.map charLower⟩

/-- Key comparison used by the generic tree's Filter: exact or
case-insensitive match. -/
def keyMatches (k name : String) : Bool :=
  k == name || strLower k == strLower name

/-- Model of ObjectList.Filter(name): keep the items whose first key matches
name and strip that key from the front. -/
def filterBlocks (name : String) (items : List ObjItem) : List ObjItem :=
  items.filterMap fun it =>
    match it.1 with
    | k :: rest => if keyMatches k name then some (rest, it.2) else none
    | [] => none

/-- Model of ObjectList.Children(): the items that still carry at least one
key. -/
def childrenItems (items : List ObjItem) : List ObjItem :=
  items.filter fun it => !it.1.isEmpty

/-- Model of ObjectList.Elem(): the items whose key chain is exhausted. -/
def elemItems (items : List ObjItem) : List ObjItem :=
  items.filter fun it => it.1.isEmpty

/-- Decoded-map lookup of a scalar attribute: the last single-key item named
k wins, mirroring the map decode of repeated assignments. -/
def attrOf (items : List ObjItem) (k : String) : Option Node :=
  items.reverse.findSome? fun it =>
    match it.1 with
    | [k1] => if k1 == k then some it.2 else none
    | _ => none

/-- Attribute lookup on a node value, requiring it to be an object. -/
def nodeAttr (n : Node) (k : String) : Option Node :=
  match n with
  | .obj items => attrOf items k
  | _ => none

/-- Modelled from the spec: helper.CheckHCLKeys is not part of this
repository's source; per the Schema Validator contract it checks a block's
actual key set against a declared whitelist and fails with a schema error
naming the first unrecognized key, before any decode of that block. -/
def checkHCLKeys (items : List ObjItem) (valid : List String) : PRes Unit :=
  match items with
  | [] => .ok ()
  | it :: rest =>
    match it.1 with
    | [] => checkHCLKeys rest valid
    | k :: _ =>
      if valid.contains k then checkHCLKeys rest valid
      else .err ("invalid key: " ++ k)

/-- CheckHCLKeys applied to a node value (the Go call sites pass either an
object list or an object type). -/
def checkHCLKeysNode (n : Node) (valid : List String) : PRes Unit :=
  match n with
  | .obj items => checkHCLKeys items valid
  | _ => .err "cannot check HCL keys of non-object type"

/-- Sequencing of a fallible step over a list, stopping at the first
non-success. -/
def mapMPRes (f : α → PRes β) : List α → PRes (List β)
  | [] => .ok []
  | a :: rest => do
    let b ← f a
    let bs ← mapMPRes f rest
    pure (b :: bs)

/-- Model of strconv.ParseBool. -/
def goParseBool (s : String) : PRes Bool :=
  if s == "1" || s == "t" || s == "T" || s == "true" || s == "TRUE" || s == "True" then
    .ok true
  else if s == "0" || s == "f" || s == "F" || s == "false" || s == "FALSE" || s == "False" then
    .ok false
  else
    .err ("parsing " ++ s ++ ": invalid syntax")

/-- Weak (loosely typed) scalar-to-string coercion of the structural
decoder. -/
def weakString : Node → PRes String
  | .str s => .ok s
  | .num n => .ok (toString n)
  | .bool b => .ok (if b then "1" else "0")
  | _ => .err "cannot weakly decode value to string"

/-- Weak scalar-to-bool coercion of the structural decoder (an empty string
decodes to false). -/
def weakBool : Node → PRes Bool
  | .bool b => .ok b
  | .str s => if s == "" then .ok false else goParseBool s
  | .num n => .ok (n != 0)
  | _ => .err "cannot weakly decode value to bool"

/-- Weak scalar-to-integer coercion of the structural decoder. -/
def weakInt : Node → PRes Int
  | .num n => .ok n
  | .bool b => .ok (if b then 1 else 0)
  | .str s =>
    match s.toInt? with
    | some n => .ok n
    | none => .err ("cannot parse " ++ s ++ " as int")
  | _ => .err "cannot weakly decode value to int"

/-- Duration parsing hook of the structural decoder: numbers are
nanoseconds, strings carry a unit suffix. -/
def goParseDuration (s : String) : PRes Int :=
  let fail : PRes Int := .err ("time: invalid duration " ++ s)
  let numPart := s.takeWhile Char.isDigit
  let unitPart := s.drop numPart.length
  match numPart.toInt? with
  | none => fail
  | some n =>
    if unitPart == "ns" then .ok n
    else if unitPart == "us" then .ok (n * 1000)
    else if unitPart == "ms" then .ok (n * 1000000)
    else if unitPart == "s" then .ok (n * 1000000000)
    else if unitPart == "m" then .ok (n * 60000000000)
    else if unitPart == "h" then .ok (n * 3600000000000)
    else fail

/-- Weak coercion into a duration-typed field. -/
def weakDuration : Node → PRes Int
  | .num n => .ok n
  | .str s => goParseDuration s
  | _ => .err "cannot weakly decode value to duration"

/-- Weak coercion into a list of strings (a lone scalar becomes a singleton
list). -/
def weakStringList : Node → PRes (List String)
  | .list es => mapMPRes weakString es
  | .str s => .ok [s]
  | .num n => .ok [toString n]
  | .bool b => .ok [if b then "1" else "0"]
  | _ => .err "cannot weakly decode value to string list"

/-- Optionally override a string field from a decoded attribute. -/
def optStr (items : List ObjItem) (k : String) (cur : Option String) : PRes (Option String) :=
  match attrOf items k with
  | none => .ok cur
  | some v => do let s ← weakString v; pure (some s)

/-- Optionally override a plain (non-pointer) string field. -/
def plainStr (items : List ObjItem) (k : String) (cur : String) : PRes String :=
  match attrOf items k with
  | none => .ok cur
  | some v => weakString v

/-- Optionally override an integer field from a decoded attribute. -/
def optInt (items : List ObjItem) (k : String) (cur : Option Int) : PRes (Option Int) :=
  match attrOf items k with
  | none => .ok cur
  | some v => do let n ← weakInt v; pure (some n)

/-- Optionally override a boolean field from a decoded attribute. -/
def optBool (items : List ObjItem) (k : String) (cur : Option Bool) : PRes (Option Bool) :=
  match attrOf items k with
  | none => .ok cur
  | some v => do let b ← weakBool v; pure (some b)

/-- Optionally override a plain boolean field. -/
def plainBool (items : List ObjItem) (k : String) (cur : Bool) : PRes Bool :=
  match attrOf items k with
  | none => .ok cur
  | some v => weakBool v

/-- Optionally override a duration field from a decoded attribute. -/
def optDur (items : List ObjItem) (k : String) (cur : Option Int) : PRes (Option Int) :=
  match attrOf items k with
  | none => .ok cur
  | some v => do let n ← weakDuration v; pure (some n)

/-- Optionally override a plain duration field. -/
def plainDur (items : List ObjItem) (k : String) (cur : Int) : PRes Int :=
  match attrOf items k with
  | none => .ok cur
  | some v => weakDuration v

/-- Optionally override a string-list field from a decoded attribute. -/
def optStrList (items : List ObjItem) (k : String) (cur : List String) : PRes (List String) :=
  match attrOf items k with
  | none => .ok cur
  | some v => weakStringList v

/-- Merge the scalar attributes of one block occurrence into a string map,
later assignments overwriting earlier ones (used for meta and env blocks). -/
def mergeStringMap (m : List (String × String)) (items : List ObjItem) : PRes (List (String × String)) :=
  match items with
  | [] => .ok m
  | it :: rest =>
    match it.1 with
    | [k] => do
      let s ← weakString it.2
      mergeStringMap ((m.filter fun kv => kv.1 != k) ++ [(k, s)]) rest
    | _ => mergeStringMap m rest

/-! Typed job model (the api structs populated by the transform, per the
spec's data model).  Pointer-valued Go fields are Option; Go zero values are
the field defaults. -/

/-- Vault block: secret-access policies and credential-change behavior. -/
structure Vault where
  Policies : List String := []
  Env : Option Bool := none
  ChangeMode : Option String := none
  ChangeSignal : Option String := none
deriving Repr, DecidableEq

/-- Hard placement rule: left-target, operand, right-target. -/
structure Constraint where
  LTarget : String := ""
  RTarget : String := ""
  Operand : String := ""
deriving Repr, DecidableEq

/-- Soft placement preference: constraint shape plus a weight. -/
structure Affinity where
  LTarget : String := ""
  RTarget : String := ""
  Operand : String := ""
  Weight : Option Int := none
deriving Repr, DecidableEq

/-- Named port of a network block; Value comes from the static attribute. -/
structure Port where
  Label : String := ""
  Value : Int := 0
deriving Repr, DecidableEq

/-- Network requirements: bandwidth plus declared ports split into reserved
and dynamic. -/
structure NetworkResource where
  Mbits : Option Int := none
  ReservedPorts : List Port := []
  DynamicPorts : List Port := []
deriving Repr, DecidableEq

/-- Device request: name, count and its own placement rules. -/
structure RequestedDevice where
  Name : String := ""
  Count : Option Int := none
  Constraints : List Constraint := []
  Affinities : List Affinity := []
deriving Repr, DecidableEq

/-- Resource requirements of one task. -/
structure Resources where
  CPU : Option Int := none
  MemoryMB : Option Int := none
  DiskMB : Option Int := none
  IOPS : Option Int := none
  Networks : List NetworkResource := []
  Devices : List RequestedDevice := []
deriving Repr, DecidableEq

/-- Log rotation configuration. -/
structure LogConfig where
  MaxFiles : Option Int := none
  MaxFileSizeMB : Option Int := none
deriving Repr, DecidableEq

/-- Dispatch payload destination. -/
structure DispatchPayloadConfig where
  File : String := ""
deriving Repr, DecidableEq

/-- Artifact fetch directive. -/
structure TaskArtifact where
  GetterSource : Option String := none
  GetterOptions : List (String × String) := []
  GetterMode : Option String := none
  RelativeDest : Option String := none
deriving Repr, DecidableEq

/-- Rendered-file directive with change-triggered behavior. -/
structure Template where
  SourcePath : Option String := none
  DestPath : Option String := none
  EmbeddedTmpl : Option String := none
  ChangeMode : Option String := none
  ChangeSignal : Option String := none
  Splay : Option Int := none
  Perms : Option String := none
  LeftDelim : Option String := none
  RightDelim : Option String := none
  Envvars : Option Bool := none
  VaultGrace : Option Int := none
deriving Repr, DecidableEq

/-- Policy for restarting after repeated failing health checks. -/
structure CheckRestart where
  Limit : Int := 0
  Grace : Option Int := none
  IgnoreWarnings : Bool := false
deriving Repr, DecidableEq

/-- Health-check definition of a service. -/
structure ServiceCheck where
  Name : String := ""
  CheckType : String := ""
  Command : String := ""
  Args : List String := []
  Path : String := ""
  Protocol : String := ""
  PortLabel : String := ""
  AddressMode : String := ""
  Interval : Option Int := none
  Timeout : Option Int := none
  InitialStatus : String := ""
  TLSSkipVerify : Bool := false
  Header : List (String × List String) := []
  Method : String := ""
  CheckRestart : Option CheckRestart := none
  GRPCService : String := ""
  GRPCUseTLS : Bool := false
deriving Repr, DecidableEq

/-- Registered discoverable endpoint of a task. -/
structure Service where
  Name : String := ""
  Tags : List String := []
  CanaryTags : List String := []
  PortLabel : String := ""
  AddressMode : String := ""
  Checks : List ServiceCheck := []
  CheckRestart : Option CheckRestart := none
deriving Repr, DecidableEq

/-- Restart policy of a task group. -/
structure RestartPolicy where
  Interval : Option Int := none
  Attempts : Option Int := none
  Delay : Option Int := none
  Mode : Option String := none
deriving Repr, DecidableEq

/-- Reschedule policy. -/
structure ReschedulePolicy where
  Attempts : Option Int := none
  Interval : Option Int := none
  Delay : Option Int := none
  DelayFunction : Option String := none
  MaxDelay : Option Int := none
  Unlimited : Option Bool := none
deriving Repr, DecidableEq

/-- Ephemeral disk requirements of a task group. -/
structure EphemeralDisk where
  Sticky : Option Bool := none
  Migrate : Option Bool := none
  SizeMB : Option Int := none
deriving Repr, DecidableEq

/-- Update strategy. -/
structure UpdateStrategy where
  Stagger : Option Int := none
  MaxParallel : Option Int := none
  HealthCheck : Option String := none
  MinHealthyTime : Option Int := none
  HealthyDeadline : Option Int := none
  ProgressDeadline : Option Int := none
  AutoRevert : Option Bool := none
  Canary : Option Int := none
deriving Repr, DecidableEq

/-- Migration strategy. -/
structure MigrateStrategy where
  MaxParallel : Option Int := none
  HealthCheck : Option String := none
  MinHealthyTime : Option Int := none
  HealthyDeadline : Option Int := none
deriving Repr, DecidableEq

/-- Time-based recurring dispatch definition. -/
structure PeriodicConfig where
  Enabled : Option Bool := none
  Spec : Option String := none
  SpecType : Option String := none
  ProhibitOverlap : Option Bool := none
  TimeZone : Option String := none
deriving Repr, DecidableEq

/-- Parameterized-job configuration. -/
structure ParameterizedJobConfig where
  Payload : String := ""
  MetaRequired : List String := []
  MetaOptional : List String := []
deriving Repr, DecidableEq

/-- Explicit target of a spread. -/
structure SpreadTarget where
  Value : String := ""
  Percent : Option Int := none
deriving Repr, DecidableEq

/-- Placement-distribution preference. -/
structure Spread where
  Attribute : String := ""
  Weight : Option Int := none
  SpreadTarget : List SpreadTarget := []
deriving Repr, DecidableEq

/-- One task: the smallest unit of work.  Config holds the raw
driver-specific key/value map. -/
structure Task where
  Name : String := ""
  Driver : String := ""
  User : String := ""
  Config : List (String × Node) := []
  Constraints : List Constraint := []
  Affinities : List Affinity := []
  Env : List (String × String) := []
  Services : List Service := []
  Resources : Option Resources := none
  Meta : List (String × String) := []
  KillTimeout : Option Int := none
  LogConfig : Option LogConfig := none
  Artifacts : List TaskArtifact := []
  Vault : Option Vault := none
  Templates : List Template := []
  DispatchPayload : Option DispatchPayloadConfig := none
  Leader : Bool := false
  ShutdownDelay : Int := 0
  KillSignal : String := ""
deriving Repr

/-- One task group. -/
structure TaskGroup where
  Name : Option String := none
  Count : Option Int := none
  Constraints : List Constraint := []
  Affinities : List Affinity := []
  Tasks : List Task := []
  Spreads : List Spread := []
  RestartPolicy : Option RestartPolicy := none
  ReschedulePolicy : Option ReschedulePolicy := none
  EphemeralDisk : Option EphemeralDisk := none
  Update : Option UpdateStrategy := none
  Migrate : Option MigrateStrategy := none
  Meta : List (String × String) := []
deriving Repr

/-- The top-level job model. -/
structure Job where
  Region : Option String := none
  Namespace : Option String := none
  ID : Option String := none
  Name : Option String := none
  JobType : Option String := none
  Priority : Option Int := none
  AllAtOnce : Option Bool := none
  Datacenters : List String := []
  Constraints : List Constraint := []
  Affinities : List Affinity := []
  TaskGroups : List TaskGroup := []
  Update : Option UpdateStrategy := none
  Spreads : List Spread := []
  Periodic : Option PeriodicConfig := none
  ParameterizedJob : Option ParameterizedJobConfig := none
  Reschedule : Option ReschedulePolicy := none
  Migrate : Option MigrateStrategy := none
  Meta : List (String × String) := []
  VaultToken : Option String := none
deriving Repr

/-! Leaf transformers, translated from parse.go. -/

/-- parseRestartPolicy: singleton restart block of a group. -/
def parseRestartPolicy (list : List ObjItem) : PRes RestartPolicy := do
  let list := elemItems list
  if list.length > 1 then .err "only one 'restart' block allowed"
  else do
    let obj ← itemsHead list
    checkHCLKeysNode obj.2 ["attempts", "interval", "delay", "mode"]
    match obj.2 with
    | .obj items => do
      let attempts ← optInt items "attempts" none
      let interval ← optDur items "interval" none
      let delay ← optDur items "delay" none
      let mode ← optStr items "mode" none
      pure { Attempts := attempts, Interval := interval, Delay := delay, Mode := mode }
    | _ => .err "cannot decode object"

/-- parseReschedulePolicy: singleton reschedule block. -/
def parseReschedulePolicy (list : List ObjItem) : PRes ReschedulePolicy := do
  let list := elemItems list
  if list.length > 1 then .err "only one 'reschedule' block allowed"
  else do
    let obj ← itemsHead list
    checkHCLKeysNode obj.2 ["attempts", "interval", "unlimited", "delay", "max_delay", "delay_function"]
    match obj.2 with
    | .obj items => do
      let attempts ← optInt items "attempts" none
      let interval ← optDur items "interval" none
      let unlimited ← optBool items "unlimited" none
      let delay ← optDur items "delay" none
      let maxDelay ← optDur items "max_delay" none
      let delayFn ← optStr items "delay_function" none
      pure { Attempts := attempts, Interval := interval, Unlimited := unlimited,
             Delay := delay, MaxDelay := maxDelay, DelayFunction := delayFn }
    | _ => .err "cannot decode object"

/-- parseBool: convert a decoded value to a boolean, mirroring the
string-or-literal boolean parsing of parse.go. -/
def parseBool (value : Node) : PRes Bool :=
  match value with
  | .str s => goParseBool s
  | .bool b => .ok b
  | _ => .err "value couldn't be converted to boolean value"

/-- Flat attribute map of one constraint entry, as decoded from the generic
tree (only whitelisted keys can be present once the schema check passed). -/
structure CEntry where
  attr : Option Node := none
  operator : Option Node := none
  value : Option Node := none
  version : Option Node := none
  regexp : Option Node := none
  set_contains : Option Node := none
  distinct_hosts : Option Node := none
  distinct_property : Option Node := none

/-- Extract a constraint entry from a decoded object. -/
def constraintEntryOf (items : List ObjItem) : CEntry :=
  { attr := attrOf items "attribute"
    operator := attrOf items "operator"
    value := attrOf items "value"
    version := attrOf items "version"
    regexp := attrOf items "regexp"
    set_contains := attrOf items "set_contains"
    distinct_hosts := attrOf items "distinct_hosts"
    distinct_property := attrOf items "distinct_property" }

/-- Final structural decode of the canonicalized LTarget/RTarget/Operand
keys into a Constraint, with the equality default for a missing operand. -/
def buildConstraint (lt rt op : Option Node) : PRes (Option Constraint) := do
  let l ← match lt with | none => pure "" | some v => weakString v
  let r ← match rt with | none => pure "" | some v => weakString v
  let o ← match op with | none => pure "" | some v => weakString v
  let o := if o == "" then "=" else o
  pure (some { LTarget := l, RTarget := r, Operand := o })

/-- distinct_property step of parseConstraints: overrides operand and
left-target, then builds the constraint. -/
def distinctPropertyStep (e : CEntry) (lt rt op : Option Node) : PRes (Option Constraint) :=
  match e.distinct_property with
  | some property => buildConstraint (some property) rt (some (Node.str "distinct_property"))
  | none => buildConstraint lt rt op

/-- Core of parseConstraints for one entry: alias resolution in the fixed
code order (version, regexp, set_contains, distinct_hosts,
distinct_property), the boolean-parsed distinct_hosts dropping the entry
when false, then the structural decode.  Returns none when the entry is
skipped. -/
def parseConstraintEntry (e : CEntry) : PRes (Option Constraint) :=
  let lt := e.attr
  let rt := e.value
  let op := e.operator
  let op := match e.version with | some _ => some (Node.str "version") | none => op
  let rt := match e.version with | some c => some c | none => rt
  let op := match e.regexp with | some _ => some (Node.str "regexp") | none => op
  let rt := match e.regexp with | some c => some c | none => rt
  let op := match e.set_contains with | some _ => some (Node.str "set_contains") | none => op
  let rt := match e.set_contains with | some c => some c | none => rt
  match e.distinct_hosts with
  | some value =>
    (match parseBool value with
    | .err m => .err ("distinct_hosts should be set to true or false; " ++ m)
    | .panic p => .panic p
    | .ok enabled =>
      if !enabled then .ok none
      else distinctPropertyStep e lt rt (some (Node.str "distinct_hosts")))
  | none => distinctPropertyStep e lt rt op

/-- parseConstraints over the element items of a constraint list. -/
def parseConstraintsList : List ObjItem → PRes (List Constraint)
  | [] => .ok []
  | o :: rest => do
    checkHCLKeysNode o.2 ["attribute", "distinct_hosts", "distinct_property", "operator",
                          "regexp", "set_contains", "value", "version"]
    match o.2 with
    | .obj items => do
      let c? ← parseConstraintEntry (constraintEntryOf items)
      let cs ← parseConstraintsList rest
      pure (match c? with | none => cs | some c => c :: cs)
    | _ => .err "cannot decode object"

/-- parseConstraints: transform every constraint entry of the filtered
list. -/
def parseConstraints (list : List ObjItem) : PRes (List Constraint) :=
  parseConstraintsList (elemItems list)

/-- Flat attribute map of one affinity entry. -/
structure AEntry where
  attr : Option Node := none
  operator : Option Node := none
  value : Option Node := none
  version : Option Node := none
  regexp : Option Node := none
  set_contains : Option Node := none
  set_contains_any : Option Node := none
  set_contains_all : Option Node := none
  weight : Option Node := none

/-- Extract an affinity entry from a decoded object. -/
def affinityEntryOf (items : List ObjItem) : AEntry :=
  { attr := attrOf items "attribute"
    operator := attrOf items "operator"
    value := attrOf items "value"
    version := attrOf items "version"
    regexp := attrOf items "regexp"
    set_contains := attrOf items "set_contains"
    set_contains_any := attrOf items "set_contains_any"
    set_contains_all := attrOf items "set_contains_all"
    weight := attrOf items "weight" }

/-- Final structural decode of an affinity entry. -/
def buildAffinity (lt rt op w : Option Node) : PRes (Option Affinity) := do
  let l ← match lt with | none => pure "" | some v => weakString v
  let r ← match rt with | none => pure "" | some v => weakString v
  let o ← match op with | none => pure "" | some v => weakString v
  let weight ← match w with
    | none => pure none
    | some v => do let n ← weakInt v; pure (some n)
  let o := if o == "" then "=" else o
  pure (some { LTarget := l, RTarget := r, Operand := o, Weight := weight })

/-- Core of parseAffinities for one entry: alias resolution in the fixed
code order (version, regexp, set_contains_any, set_contains_all,
set_contains), then the structural decode. -/
def parseAffinityEntry (e : AEntry) : PRes (Option Affinity) :=
  let lt := e.attr
  let rt := e.value
  let op := e.operator
  let op := match e.version with | some _ => some (Node.str "version") | none => op
  let rt := match e.version with | some c => some c | none => rt
  let op := match e.regexp with | some _ => some (Node.str "regexp") | none => op
  let rt := match e.regexp with | some c => some c | none => rt
  let op := match e.set_contains_any with | some _ => some (Node.str "set_contains_any") | none => op
  let rt := match e.set_contains_any with | some c => some c | none => rt
  let op := match e.set_contains_all with | some _ => some (Node.str "set_contains_all") | none => op
  let rt := match e.set_contains_all with | some c => some c | none => rt
  let op := match e.set_contains with | some _ => some (Node.str "set_contains") | none => op
  let rt := match e.set_contains with | some c => some c | none => rt
  buildAffinity lt rt op e.weight

/-- parseAffinities over the element items of an affinity list. -/
def parseAffinitiesList : List ObjItem → PRes (List Affinity)
  | [] => .ok []
  | o :: rest => do
    checkHCLKeysNode o.2 ["attribute", "operator", "regexp", "set_contains",
                          "set_contains_any", "set_contains_all", "value", "version", "weight"]
    match o.2 with
    | .obj items => do
      let a? ← parseAffinityEntry (affinityEntryOf items)
      let as1 ← parseAffinitiesList rest
      pure (match a? with | none => as1 | some a => a :: as1)
    | _ => .err "cannot decode object"

/-- parseAffinities: transform every affinity entry of the filtered list. -/
def parseAffinities (list : List ObjItem) : PRes (List Affinity) :=
  parseAffinitiesList (elemItems list)

/-- parseEphemeralDisk: singleton ephemeral_disk block of a group. -/
def parseEphemeralDisk (list : List ObjItem) : PRes EphemeralDisk := do
  let list := elemItems list
  if list.length > 1 then .err "only one 'ephemeral_disk' block allowed"
  else do
    let obj ← itemsHead list
    checkHCLKeysNode obj.2 ["sticky", "size", "migrate"]
    match obj.2 with
    | .obj items => do
      let sticky ← optBool items "sticky" none
      let migrate ← optBool items "migrate" none
      let size ← optInt items "size" none
      pure { Sticky := sticky, Migrate := migrate, SizeMB := size }
    | _ => .err "cannot decode object"

/-- parseSpreadTarget: named target sub-blocks of a spread, rejecting
duplicate target values. -/
def parseSpreadTargetList : List ObjItem → List String → PRes (List SpreadTarget)
  | [], _ => .ok []
  | item :: rest, seen =>
    match item.1 with
    | [n] =>
      if seen.contains n then .err ("target '" ++ n ++ "' defined more than once")
      else
        match item.2 with
        | .obj listVal => do
          wrapErr ("'" ++ n ++ "' ->") (checkHCLKeys listVal ["percent", "value"])
          let value ← plainStr listVal "value" n
          let percent ← optInt listVal "percent" none
          let rest1 ← parseSpreadTargetList rest (n :: seen)
          pure (({ Value := value, Percent := percent } : SpreadTarget) :: rest1)
        | _ => .err "target should be an object"
    | _ => .err "missing spread target"

/-- parseSpread over the element items of a spread list. -/
def parseSpreadList : List ObjItem → PRes (List Spread)
  | [] => .ok []
  | o :: rest => do
    checkHCLKeysNode o.2 ["attribute", "weight", "target"]
    match o.2 with
    | .obj listVal => do
      let attrV ← plainStr listVal "attribute" ""
      let weight ← optInt listVal "weight" none
      let targets ← (match filterBlocks "target" listVal with
        | [] => pure []
        | ts => wrapErr "target ->" (parseSpreadTargetList ts []))
      let rest1 ← parseSpreadList rest
      pure (({ Attribute := attrV, Weight := weight, SpreadTarget := targets } : Spread) :: rest1)
    | _ => .err "spread should be an object"

/-- parseSpread: transform every spread entry of the filtered list. -/
def parseSpread (list : List ObjItem) : PRes (List Spread) :=
  parseSpreadList (elemItems list)

/-- Port label pattern of parse.go (the anchored character class of
letters, digits and underscore). -/
def validPortLabel (s : String) : Bool :=
  s.length > 0 && s.data.all fun c =>
    (('a' ≤ c && c ≤ 'z') || ('A' ≤ c && c ≤ 'Z') || ('0' ≤ c && c ≤ '9') || c == '_')

/-- errPortLabel message of parse.go. -/
def errPortLabelMsg : String :=
  "Port label does not conform to naming requirements ^[a-zA-Z0-9_]+$"

/-- Structural decode of one port block: the port value comes from the
static attribute (absent keys leave the zero value). -/
def decodePortVal (v : Node) : PRes Int :=
  match v with
  | .obj items =>
    match attrOf items "static" with
    | none => .ok 0
    | some x => weakInt x
  | _ => .err "cannot decode object"

/-- Loop of parsePorts: validate the label pattern, reject case-insensitive
duplicate labels, decode, and classify by value into reserved (positive)
or dynamic (otherwise). -/
def parsePortsLoop : List ObjItem → List String → List Port → List Port → PRes (List Port × List Port)
  | [], _, reserved, dynamic => .ok (reserved, dynamic)
  | port :: rest, known, reserved, dynamic =>
    match port.1 with
    | [] => .err "ports must be named"
    | label :: _ =>
      if !validPortLabel label then .err errPortLabelMsg
      else
        let l := strLower label
        if known.contains l then .err ("found a port label collision: " ++ label)
        else
          match decodePortVal port.2 with
          | .err e => .err e
          | .panic p => .panic p
          | .ok v =>
            if 0 < v then
              parsePortsLoop rest (l :: known) (reserved ++ [{ Label := label, Value := v }]) dynamic
            else
              parsePortsLoop rest (l :: known) reserved (dynamic ++ [{ Label := label, Value := v }])

/-- parsePorts: check the network block keys, then split the declared port
blocks into the reserved and dynamic lists. -/
def parsePorts (networkObj : List ObjItem) : PRes (List Port × List Port) := do
  checkHCLKeys networkObj ["mbits", "port"]
  parsePortsLoop (filterBlocks "port" networkObj) [] [] []

/-- Device sub-blocks of a resources block, each with an index used in
error paths, a single required name, and its own constraints/affinities. -/
def parseDevicesList : List ObjItem → Nat → PRes (List RequestedDevice)
  | [], _ => .ok []
  | do1 :: rest, idx =>
    match do1.1 with
    | [] => wrapErr ("resources, device[" ++ toString idx ++ "]->") (.err "missing device name")
    | _ :: _ :: _ => wrapErr ("resources, device[" ++ toString idx ++ "]->") (.err "only one name may be specified")
    | [name] =>
      match do1.2 with
      | .obj listVal => do
        wrapErr ("resources, device[" ++ toString idx ++ "]->")
          (checkHCLKeysNode do1.2 ["name", "count", "affinity", "constraint"])
        let name1 ← plainStr listVal "name" name
        let count ← optInt listVal "count" none
        let cs ← (match filterBlocks "constraint" listVal with
          | [] => pure []
          | o => wrapErr "constraint ->" (parseConstraints o))
        let afs ← (match filterBlocks "affinity" listVal with
          | [] => pure []
          | o => wrapErr "affinity ->" (parseAffinities o))
        let rest1 ← parseDevicesList rest (idx + 1)
        pure (({ Name := name1, Count := count, Constraints := cs, Affinities := afs } : RequestedDevice) :: rest1)
      | _ => .err "device should be an object"

/-- parseResources: singleton resources block with at most one network
sub-block and repeatable device sub-blocks. -/
def parseResources (list : List ObjItem) : PRes Resources := do
  match elemItems list with
  | [] => .ok {}
  | _ :: _ :: _ => .err "only one 'resource' block allowed per task"
  | [o] =>
    match o.2 with
    | .obj listVal => do
      wrapErr "resources ->" (checkHCLKeys listVal ["cpu", "iops", "disk", "memory", "network", "device"])
      let cpu ← optInt listVal "cpu" none
      let iops ← optInt listVal "iops" none
      let disk ← optInt listVal "disk" none
      let memory ← optInt listVal "memory" none
      let networks ← (match filterBlocks "network" listVal with
        | [] => pure []
        | _ :: _ :: _ => .err "only one 'network' resource allowed"
        | [netItem] => do
          wrapErr "resources, network ->" (checkHCLKeysNode netItem.2 ["mbits", "port"])
          match netItem.2 with
          | .obj networkItems => do
            let mbits ← optInt networkItems "mbits" none
            let ports ← wrapErr "resources, network, ports ->" (parsePorts networkItems)
            pure [({ Mbits := mbits, ReservedPorts := ports.1, DynamicPorts := ports.2 } : NetworkResource)]
          | _ => .err "resource: should be an object")
      let devices ← (match filterBlocks "device" listVal with
        | [] => pure []
        | ds => parseDevicesList ds 0)
      pure { CPU := cpu, MemoryMB := memory, DiskMB := disk, IOPS := iops,
             Networks := networks, Devices := devices }
    | _ => .err "resource: should be an object"

/-- parseArtifactOption: singleton options sub-block of an artifact merged
into a string map. -/
def parseArtifactOption (list : List ObjItem) : PRes (List (String × String)) := do
  let list := elemItems list
  if list.length > 1 then .err "only one 'options' block allowed per artifact"
  else do
    let o ← itemsHead list
    match o.2 with
    | .obj items => mergeStringMap [] items
    | _ => .err "cannot decode object"

/-- parseArtifacts over the element items of an artifact list. -/
def parseArtifactsList : List ObjItem → PRes (List TaskArtifact)
  | [] => .ok []
  | o :: rest => do
    checkHCLKeysNode o.2 ["source", "options", "mode", "destination"]
    match o.2 with
    | .obj optionList => do
      let source ← optStr optionList "source" none
      let mode ← optStr optionList "mode" none
      let dest ← optStr optionList "destination" none
      let getterOptions ← (match filterBlocks "options" optionList with
        | [] => pure []
        | oo => wrapErr "options: " (parseArtifactOption oo))
      let rest1 ← parseArtifactsList rest
      pure (({ GetterSource := source, GetterMode := mode, RelativeDest := dest,
               GetterOptions := getterOptions } : TaskArtifact) :: rest1)
    | _ => .err "artifact should be an object"

/-- parseArtifacts: transform every artifact entry of the filtered list. -/
def parseArtifacts (list : List ObjItem) : PRes (List TaskArtifact) :=
  parseArtifactsList (elemItems list)

/-- parseTemplates over the element items of a template list; the stated
defaults (restart change mode, 5 second splay, 0644 permissions) are
applied before the decode. -/
def parseTemplatesList : List ObjItem → PRes (List Template)
  | [] => .ok []
  | o :: rest => do
    checkHCLKeysNode o.2 ["change_mode", "change_signal", "data", "destination",
                          "left_delimiter", "perms", "right_delimiter", "source",
                          "splay", "env", "vault_grace"]
    match o.2 with
    | .obj m => do
      let changeMode ← optStr m "change_mode" (some "restart")
      let changeSignal ← optStr m "change_signal" none
      let data ← optStr m "data" none
      let dest ← optStr m "destination" none
      let leftD ← optStr m "left_delimiter" none
      let rightD ← optStr m "right_delimiter" none
      let perms ← optStr m "perms" (some "0644")
      let source ← optStr m "source" none
      let splay ← optDur m "splay" (some 5000000000)
      let env ← optBool m "env" none
      let vg ← optDur m "vault_grace" none
      let rest1 ← parseTemplatesList rest
      pure (({ SourcePath := source, DestPath := dest, EmbeddedTmpl := data,
               ChangeMode := changeMode, ChangeSignal := changeSignal, Splay := splay,
               Perms := perms, LeftDelim := leftD, RightDelim := rightD,
               Envvars := env, VaultGrace := vg } : Template) :: rest1)
    | _ => .err "cannot decode object"

/-- parseTemplates: transform every template entry of the filtered list. -/
def parseTemplates (list : List ObjItem) : PRes (List Template) :=
  parseTemplatesList (elemItems list)

/-- Merge one header occurrence value into the multi-valued header map. -/
def upsertAppend (m : List (String × List String)) (k : String) (vs : List String) :
    List (String × List String) :=
  if m.any fun kv => kv.1 == k then
    m.map fun kv => if kv.1 == k then (kv.1, kv.2 ++ vs) else kv
  else m ++ [(k, vs)]

/-- Merge repeated header sub-blocks of a check into one map from header
name to the ordered list of values, with a type error when a value is not a
list of strings. -/
def parseHeaderAttrs : List ObjItem → List (String × List String) → PRes (List (String × List String))
  | [], acc => .ok acc
  | it :: rest, acc =>
    match it.1 with
    | [k] =>
      match it.2 with
      | .list vs => do
        let strs ← mapMPRes (fun v => match v with
          | Node.str s => PRes.ok s
          | _ => PRes.err ("check -> header -> " ++ k ++ " expected a string")) vs
        parseHeaderAttrs rest (upsertAppend acc k strs)
      | _ => .err ("check -> header -> " ++ k ++ " expected a []string")
    | _ => parseHeaderAttrs rest acc

/-- Header blocks of a check: every header sub-block occurrence, in
declaration order. -/
def parseHeadersOf (cm : List ObjItem) : PRes (List (String × List String)) :=
  go (cm.filter fun it => it.1 == ["header"]) []
where
  go : List ObjItem → List (String × List String) → PRes (List (String × List String))
    | [], acc => .ok acc
    | it :: rest, acc =>
      match it.2 with
      | .obj items => do
        let acc1 ← parseHeaderAttrs items acc
        go rest acc1
      | _ => .err "check -> header -> expected a []map[string][]string"

/-- parseCheckRestart: one check_restart block. -/
def parseCheckRestart (cro : ObjItem) : PRes CheckRestart := do
  wrapErr "check_restart ->" (checkHCLKeysNode cro.2 ["limit", "grace", "ignore_warnings"])
  match cro.2 with
  | .obj m => do
    let limit ← (match attrOf m "limit" with
      | none => pure 0
      | some v => weakInt v)
    let grace ← optDur m "grace" none
    let ignore ← plainBool m "ignore_warnings" false
    pure { Limit := limit, Grace := grace, IgnoreWarnings := ignore }
  | _ => .err "cannot decode object"

/-- parseChecks: the check sub-blocks of a service, in declaration order,
with header merge and a singular check_restart per check. -/
def parseChecksList : List ObjItem → PRes (List ServiceCheck)
  | [] => .ok []
  | co :: rest => do
    wrapErr "check ->" (checkHCLKeysNode co.2
      ["name", "type", "interval", "timeout", "path", "protocol", "port", "command",
       "args", "initial_status", "tls_skip_verify", "header", "method", "check_restart",
       "address_mode", "grpc_service", "grpc_use_tls"])
    match co.2 with
    | .obj cm => do
      let header ← parseHeadersOf cm
      let name ← plainStr cm "name" ""
      let ty ← plainStr cm "type" ""
      let command ← plainStr cm "command" ""
      let args ← optStrList cm "args" []
      let path ← plainStr cm "path" ""
      let protocol ← plainStr cm "protocol" ""
      let portLabel ← plainStr cm "port" ""
      let addressMode ← plainStr cm "address_mode" ""
      let interval ← plainDur cm "interval" 0
      let timeout ← plainDur cm "timeout" 0
      let initialStatus ← plainStr cm "initial_status" ""
      let tls ← plainBool cm "tls_skip_verify" false
      let method ← plainStr cm "method" ""
      let grpcService ← plainStr cm "grpc_service" ""
      let grpcTLS ← plainBool cm "grpc_use_tls" false
      let checkRestart ← (match filterBlocks "check_restart" cm with
        | [] => pure none
        | [cro] => do
          let cr ← wrapErr ("check: '" ++ name ++ "',") (parseCheckRestart cro)
          pure (some cr)
        | _ => .err ("check_restart '" ++ name ++ "': cannot have more than 1 check_restart"))
      let rest1 ← parseChecksList rest
      pure (({ Name := name, CheckType := ty, Command := command, Args := args, Path := path,
               Protocol := protocol, PortLabel := portLabel, AddressMode := addressMode,
               Interval := interval, Timeout := timeout, InitialStatus := initialStatus,
               TLSSkipVerify := tls, Header := header, Method := method,
               CheckRestart := checkRestart, GRPCService := grpcService,
               GRPCUseTLS := grpcTLS } : ServiceCheck) :: rest1)
    | _ => .err "cannot decode object"

/-- parseServices: the service blocks of a task in declaration order, each
with its checks and a singular check_restart; the jobName/taskGroupName
arguments mirror the source signature and are unused by its body. -/
def parseServicesList : List ObjItem → Nat → PRes (List Service)
  | [], _ => .ok []
  | o :: rest, idx => do
    wrapErr ("service (" ++ toString idx ++ ") ->") (checkHCLKeysNode o.2
      ["name", "tags", "canary_tags", "port", "check", "address_mode", "check_restart"])
    match o.2 with
    | .obj m => do
      let name ← plainStr m "name" ""
      let tags ← optStrList m "tags" []
      let canaryTags ← optStrList m "canary_tags" []
      let portLabel ← plainStr m "port" ""
      let addressMode ← plainStr m "address_mode" ""
      let checks ← (match filterBlocks "check" m with
        | [] => pure []
        | co => wrapErr ("service: '" ++ name ++ "',") (parseChecksList co))
      let checkRestart ← (match filterBlocks "check_restart" m with
        | [] => pure none
        | [cro] => do
          let cr ← wrapErr ("service: '" ++ name ++ "',") (parseCheckRestart cro)
          pure (some cr)
        | _ => .err ("check_restart '" ++ name ++ "': cannot have more than 1 check_restart"))
      let rest1 ← parseServicesList rest (idx + 1)
      pure (({ Name := name, Tags := tags, CanaryTags := canaryTags, PortLabel := portLabel,
               AddressMode := addressMode, Checks := checks,
               CheckRestart := checkRestart } : Service) :: rest1)
    | _ => .err "service: should be an object"

/-- parseServices entry point. -/
def parseServices (jobName taskGroupName : String) (serviceObjs : List ObjItem) : PRes (List Service) :=
  let _ := jobName
  let _ := taskGroupName
  parseServicesList serviceObjs 0

/-- parseUpdate: singleton update block (the first element item is read
unconditionally; with no element item that read is an out-of-bounds
index). -/
def parseUpdate (list : List ObjItem) : PRes UpdateStrategy := do
  let list := elemItems list
  if list.length > 1 then .err "only one 'update' block allowed"
  else do
    let o ← itemsHead list
    match o.2 with
    | .obj m => do
      checkHCLKeysNode o.2 ["stagger", "max_parallel", "health_check", "min_healthy_time",
                            "healthy_deadline", "progress_deadline", "auto_revert", "canary"]
      let stagger ← optDur m "stagger" none
      let maxParallel ← optInt m "max_parallel" none
      let healthCheck ← optStr m "health_check" none
      let minHealthy ← optDur m "min_healthy_time" none
      let healthyDeadline ← optDur m "healthy_deadline" none
      let progressDeadline ← optDur m "progress_deadline" none
      let autoRevert ← optBool m "auto_revert" none
      let canary ← optInt m "canary" none
      pure { Stagger := stagger, MaxParallel := maxParallel, HealthCheck := healthCheck,
             MinHealthyTime := minHealthy, HealthyDeadline := healthyDeadline,
             ProgressDeadline := progressDeadline, AutoRevert := autoRevert, Canary := canary }
    | _ => .err "cannot decode object"

/-- parseMigrate: singleton migrate block, same unconditional first-item
read as parseUpdate. -/
def parseMigrate (list : List ObjItem) : PRes MigrateStrategy := do
  let list := elemItems list
  if list.length > 1 then .err "only one 'migrate' block allowed"
  else do
    let o ← itemsHead list
    match o.2 with
    | .obj m => do
      checkHCLKeysNode o.2 ["max_parallel", "health_check", "min_healthy_time", "healthy_deadline"]
      let maxParallel ← optInt m "max_parallel" none
      let healthCheck ← optStr m "health_check" none
      let minHealthy ← optDur m "min_healthy_time" none
      let healthyDeadline ← optDur m "healthy_deadline" none
      pure { MaxParallel := maxParallel, HealthCheck := healthCheck,
             MinHealthyTime := minHealthy, HealthyDeadline := healthyDeadline }
    | _ => .err "cannot decode object"

/-- parsePeriodic: singleton periodic block; enabled is boolean-parsed and
a cron attribute sets the spec type to cron. -/
def parsePeriodic (list : List ObjItem) : PRes PeriodicConfig := do
  let list := elemItems list
  if list.length > 1 then .err "only one 'periodic' block allowed per job"
  else do
    let o ← itemsHead list
    match o.2 with
    | .obj m => do
      checkHCLKeysNode o.2 ["enabled", "cron", "prohibit_overlap", "time_zone"]
      let enabled ← (match attrOf m "enabled" with
        | none => pure none
        | some v =>
          match parseBool v with
          | .ok b => pure (some b)
          | .err msg => .err ("periodic.enabled should be set to true or false; " ++ msg)
          | .panic p => .panic p)
      let specPair := (match attrOf m "cron" with
        | some c => (some c, some "cron")
        | none => (none, none))
      let specS ← (match specPair.1 with
        | none => pure none
        | some v => do let s ← weakString v; pure (some s))
      let overlap ← optBool m "prohibit_overlap" none
      let tz ← optStr m "time_zone" none
      pure { Enabled := enabled, Spec := specS, SpecType := specPair.2,
             ProhibitOverlap := overlap, TimeZone := tz }
    | _ => .err "cannot decode object"

/-- parseVault: singleton vault block decoded over the caller-provided
pre-populated result; with no element item (for example a vault block
written with an extra name label) it returns the result untouched and
reports no error. -/
def parseVault (result : Vault) (list : List ObjItem) : PRes Vault :=
  match elemItems list with
  | [] => .ok result
  | _ :: _ :: _ => .err "only one 'vault' block allowed per task"
  | [o] =>
    match o.2 with
    | .obj listVal => do
      wrapErr "vault ->" (checkHCLKeys listVal ["policies", "env", "change_mode", "change_signal"])
      let policies ← optStrList listVal "policies" result.Policies
      let env ← optBool listVal "env" result.Env
      let changeMode ← optStr listVal "change_mode" result.ChangeMode
      let changeSignal ← optStr listVal "change_signal" result.ChangeSignal
      pure { Policies := policies, Env := env, ChangeMode := changeMode, ChangeSignal := changeSignal }
    | _ => .err "vault: should be an object"

/-- parseParameterizedJob: singleton parameterized block, same
unconditional first-item read as parseUpdate. -/
def parseParameterizedJob (list : List ObjItem) : PRes ParameterizedJobConfig := do
  let list := elemItems list
  if list.length > 1 then .err "only one 'parameterized' block allowed per job"
  else do
    let o ← itemsHead list
    match o.2 with
    | .obj m => do
      checkHCLKeysNode o.2 ["payload", "meta_required", "meta_optional"]
      let payload ← plainStr m "payload" ""
      let metaRequired ← optStrList m "meta_required" []
      let metaOptional ← optStrList m "meta_optional" []
      pure { Payload := payload, MetaRequired := metaRequired, MetaOptional := metaOptional }
    | _ => .err "cannot decode object"

/-- Merge a list of decoded block occurrences into one string map (used by
the repeated meta/env blocks). -/
def mergeBlocks (acc : List (String × String)) : List ObjItem → PRes (List (String × String))
  | [] => .ok acc
  | o :: rest =>
    match o.2 with
    | .obj items =>
      match mergeStringMap acc items with
      | .ok acc1 => mergeBlocks acc1 rest
      | .err e => .err e
      | .panic p => .panic p
    | _ => .err "cannot decode object"

/-- Merge the scalar attributes of one config occurrence into the raw
driver-config map. -/
def mergeNodeMap (m : List (String × Node)) : List ObjItem → List (String × Node)
  | [] => m
  | it :: rest =>
    match it.1 with
    | [k] => mergeNodeMap ((m.filter fun kv => kv.1 != k) ++ [(k, it.2)]) rest
    | _ => mergeNodeMap m rest

/-- Merge a list of decoded config occurrences into the driver-config
map. -/
def mergeConfigBlocks (acc : List (String × Node)) : List ObjItem → PRes (List (String × Node))
  | [] => .ok acc
  | o :: rest =>
    match o.2 with
    | .obj items => mergeConfigBlocks (mergeNodeMap acc items) rest
    | _ => .err "cannot decode object"

/-- Vault defaults injected by every vault call site before the decode. -/
def vaultDefaults : Vault :=
  { Env := some true, ChangeMode := some "restart" }

/-- Body of parseTasks for one task block: schema check, attribute decode,
then every task-scoped leaf transformer in source order. -/
def parseOneTask (jobName taskGroupName n : String) (listVal : List ObjItem) : PRes Task := do
  wrapErr ("'" ++ n ++ "' ->") (checkHCLKeys listVal
    ["artifact", "config", "constraint", "affinity", "dispatch_payload", "driver", "env",
     "kill_timeout", "leader", "logs", "meta", "resources", "service", "shutdown_delay",
     "template", "user", "vault", "kill_signal"])
  let driver ← plainStr listVal "driver" ""
  let user ← plainStr listVal "user" ""
  let killTimeout ← optDur listVal "kill_timeout" none
  let leader ← plainBool listVal "leader" false
  let shutdownDelay ← plainDur listVal "shutdown_delay" 0
  let killSignal ← plainStr listVal "kill_signal" ""
  let env ← (match filterBlocks "env" listVal with
    | [] => pure []
    | o => mergeBlocks [] (elemItems o))
  let services ← (match filterBlocks "service" listVal with
    | [] => pure []
    | o => wrapErr ("'" ++ n ++ "',") (parseServices jobName taskGroupName o))
  let config ← (match filterBlocks "config" listVal with
    | [] => pure []
    | o => mergeConfigBlocks [] (elemItems o))
  let constraints ← (match filterBlocks "constraint" listVal with
    | [] => pure []
    | o => wrapErr ("'" ++ n ++ "', constraint ->") (parseConstraints o))
  let affinities ← (match filterBlocks "affinity" listVal with
    | [] => pure []
    | o => wrapErr "affinity ->" (parseAffinities o))
  let meta ← (match filterBlocks "meta" listVal with
    | [] => pure []
    | o => mergeBlocks [] (elemItems o))
  let resources ← (match filterBlocks "resources" listVal with
    | [] => pure none
    | o => do
      let r ← wrapErr ("'" ++ n ++ "',") (parseResources o)
      pure (some r))
  let logConfig ← (match filterBlocks "logs" listVal with
    | [] => pure none
    | [logsBlock] => do
      wrapErr ("'" ++ n ++ "', logs ->") (checkHCLKeysNode logsBlock.2 ["max_files", "max_file_size"])
      match logsBlock.2 with
      | .obj m => do
        let maxFiles ← optInt m "max_files" none
        let maxSize ← optInt m "max_file_size" none
        pure (some ({ MaxFiles := maxFiles, MaxFileSizeMB := maxSize } : LogConfig))
      | _ => .err "cannot decode object"
    | o => .err ("only one logs block is allowed in a Task. Number of logs block found: " ++ toString o.length))
  let artifacts ← (match filterBlocks "artifact" listVal with
    | [] => pure []
    | o => wrapErr ("'" ++ n ++ "', artifact ->") (parseArtifacts o))
  let templates ← (match filterBlocks "template" listVal with
    | [] => pure []
    | o => wrapErr ("'" ++ n ++ "', template ->") (parseTemplates o))
  let vault ← (match filterBlocks "vault" listVal with
    | [] => pure none
    | o => do
      let v ← wrapErr ("'" ++ n ++ "', vault ->") (parseVault vaultDefaults o)
      pure (some v))
  let dispatchPayload ← (match filterBlocks "dispatch_payload" listVal with
    | [] => pure none
    | [dispatchBlock] => do
      wrapErr ("'" ++ n ++ "', dispatch_payload ->") (checkHCLKeysNode dispatchBlock.2 ["file"])
      match dispatchBlock.2 with
      | .obj m => do
        let file ← plainStr m "file" ""
        pure (some ({ File := file } : DispatchPayloadConfig))
      | _ => .err "cannot decode object"
    | o => .err ("only one dispatch_payload block is allowed in a task. Number of dispatch_payload blocks found: " ++ toString o.length))
  pure { Name := n, Driver := driver, User := user, KillTimeout := killTimeout,
         Leader := leader, ShutdownDelay := shutdownDelay, KillSignal := killSignal,
         Env := env, Services := services, Config := config, Constraints := constraints,
         Affinities := affinities, Meta := meta, Resources := resources,
         LogConfig := logConfig, Artifacts := artifacts, Templates := templates,
         Vault := vault, DispatchPayload := dispatchPayload }

/-- Loop of parseTasks over the named task blocks, rejecting duplicate task
names; a first task name fills in an empty task-group name for the rest of
the walk, as in the source. -/
def parseTasksList (jobName taskGroupName : String) : List ObjItem → List String → PRes (List Task)
  | [], _ => .ok []
  | item :: rest, seen =>
    match item.1 with
    | [] => .panic "runtime error: index out of range"
    | n :: _ =>
      if seen.contains n then .err ("task '" ++ n ++ "' defined more than once")
      else
        match item.2 with
        | .obj listVal => do
          let tgName := if taskGroupName == "" then n else taskGroupName
          let t ← parseOneTask jobName tgName n listVal
          let rest1 ← parseTasksList jobName tgName rest (n :: seen)
          pure (t :: rest1)
        | _ => .err ("group '" ++ n ++ "': should be an object")

/-- parseTasks: transform the named children of a task list. -/
def parseTasks (jobName taskGroupName : String) (list : List ObjItem) : PRes (List Task) :=
  parseTasksList jobName taskGroupName (childrenItems list) []

/-- Push a resolved vault configuration down into every task that does not
have one (the group-level and job-level inheritance passes). -/
def pushVault (v : Vault) (tasks : List Task) : List Task :=
  tasks.map fun task =>
    match task.Vault with
    | none => { task with Vault := some v }
    | some _ => task

/-- Body of parseGroups for one group block: schema check, attribute
decode, the group-scoped leaf transformers, the tasks, then the group
vault block pushed down into tasks lacking one. -/
def parseOneGroup (jobName n : String) (listVal : List ObjItem) : PRes TaskGroup := do
  wrapErr ("'" ++ n ++ "' ->") (checkHCLKeys listVal
    ["count", "constraint", "affinity", "restart", "meta", "task", "ephemeral_disk",
     "update", "reschedule", "vault", "migrate", "spread"])
  let count ← optInt listVal "count" none
  let constraints ← (match filterBlocks "constraint" listVal with
    | [] => pure []
    | o => wrapErr ("'" ++ n ++ "', constraint ->") (parseConstraints o))
  let affinities ← (match filterBlocks "affinity" listVal with
    | [] => pure []
    | o => wrapErr ("'" ++ n ++ "', affinity ->") (parseAffinities o))
  let restart ← (match filterBlocks "restart" listVal with
    | [] => pure none
    | o => do
      let r ← wrapErr ("'" ++ n ++ "', restart ->") (parseRestartPolicy o)
      pure (some r))
  let spreads ← (match filterBlocks "spread" listVal with
    | [] => pure []
    | o => wrapErr "spread ->" (parseSpread o))
  let resched ← (match filterBlocks "reschedule" listVal with
    | [] => pure none
    | o => do
      let r ← wrapErr ("'" ++ n ++ "', reschedule ->") (parseReschedulePolicy o)
      pure (some r))
  let edisk ← (match filterBlocks "ephemeral_disk" listVal with
    | [] => pure none
    | o => do
      let r ← wrapErr ("'" ++ n ++ "', ephemeral_disk ->") (parseEphemeralDisk o)
      pure (some r))
  let update ← (match filterBlocks "update" listVal with
    | [] => pure none
    | o => do
      let u ← wrapErr "update ->" (parseUpdate o)
      pure (some u))
  let migrate ← (match filterBlocks "migrate" listVal with
    | [] => pure none
    | o => do
      let u ← wrapErr "migrate ->" (parseMigrate o)
      pure (some u))
  let meta ← (match filterBlocks "meta" listVal with
    | [] => pure []
    | o => mergeBlocks [] (elemItems o))
  let tasks ← (match filterBlocks "task" listVal with
    | [] => pure []
    | o => wrapErr ("'" ++ n ++ "', task:") (parseTasks jobName n o))
  let tasks ← (match filterBlocks "vault" listVal with
    | [] => pure tasks
    | o => do
      let tgVault ← wrapErr ("'" ++ n ++ "', vault ->") (parseVault vaultDefaults o)
      pure (pushVault tgVault tasks))
  pure { Name := some n, Count := count, Constraints := constraints, Affinities := affinities,
         RestartPolicy := restart, Spreads := spreads, ReschedulePolicy := resched,
         EphemeralDisk := edisk, Update := update, Migrate := migrate, Meta := meta,
         Tasks := tasks }

/-- Loop of parseGroups over the named group blocks, rejecting duplicate
group names among them. -/
def parseGroupsList (jobName : String) : List ObjItem → List String → PRes (List TaskGroup)
  | [], _ => .ok []
  | item :: rest, seen =>
    match item.1 with
    | [] => .panic "runtime error: index out of range"
    | n :: _ =>
      if seen.contains n then .err ("group '" ++ n ++ "' defined more than once")
      else
        match item.2 with
        | .obj listVal => do
          let g ← parseOneGroup jobName n listVal
          let rest1 ← parseGroupsList jobName rest (n :: seen)
          pure (g :: rest1)
        | _ => .err ("group '" ++ n ++ "': should be an object")

/-- parseGroups: transform the named children of a group list. -/
def parseGroups (jobName : String) (list : List ObjItem) : PRes (List TaskGroup) :=
  parseGroupsList jobName (childrenItems list) []

/-- parseJob: top-level assembly.  The id and name come from the block's
declared key (overridable by id/name attributes), bare task blocks are
wrapped into single-task groups before explicit group blocks are appended,
and a job-level vault block is resolved last and pushed down into every
task lacking one. -/
def parseJob (list0 : List ObjItem) : PRes Job := do
  if list0.length != 1 then .err "only one 'job' block allowed"
  else do
  let list := childrenItems list0
  if list.length != 1 then .err "'job' block missing name"
  else do
  let obj ← itemsHead list
  match obj.1 with
  | [] => .panic "runtime error: index out of range"
  | jobKey :: _ =>
    match obj.2 with
    | .obj listVal => do
      let id ← plainStr listVal "id" jobKey
      let name ← plainStr listVal "name" jobKey
      let region ← optStr listVal "region" none
      let namespace1 ← optStr listVal "namespace" none
      let jtype ← optStr listVal "type" none
      let priority ← optInt listVal "priority" none
      let allAtOnce ← optBool listVal "all_at_once" none
      let datacenters ← optStrList listVal "datacenters" []
      let vaultToken ← optStr listVal "vault_token" none
      wrapErr "job:" (checkHCLKeys listVal
        ["all_at_once", "constraint", "affinity", "spread", "datacenters", "group", "id",
         "meta", "migrate", "name", "namespace", "parameterized", "periodic", "priority",
         "region", "reschedule", "task", "type", "update", "vault", "vault_token"])
      let constraints ← (match filterBlocks "constraint" listVal with
        | [] => pure []
        | o => wrapErr "constraint ->" (parseConstraints o))
      let affinities ← (match filterBlocks "affinity" listVal with
        | [] => pure []
        | o => wrapErr "affinity ->" (parseAffinities o))
      let update ← (match filterBlocks "update" listVal with
        | [] => pure none
        | o => do
          let u ← wrapErr "update ->" (parseUpdate o)
          pure (some u))
      let periodic ← (match filterBlocks "periodic" listVal with
        | [] => pure none
        | o => do
          let p ← wrapErr "periodic ->" (parsePeriodic o)
          pure (some p))
      let spreads ← (match filterBlocks "spread" listVal with
        | [] => pure []
        | o => wrapErr "spread ->" (parseSpread o))
      let pjob ← (match filterBlocks "parameterized" listVal with
        | [] => pure none
        | o => do
          let p ← wrapErr "parameterized ->" (parseParameterizedJob o)
          pure (some p))
      let resched ← (match filterBlocks "reschedule" listVal with
        | [] => pure none
        | o => do
          let r ← wrapErr "reschedule ->" (parseReschedulePolicy o)
          pure (some r))
      let migrate ← (match filterBlocks "migrate" listVal with
        | [] => pure none
        | o => do
          let u ← wrapErr "migrate ->" (parseMigrate o)
          pure (some u))
      let meta ← (match filterBlocks "meta" listVal with
        | [] => pure []
        | o => mergeBlocks [] (elemItems o))
      let tgs0 ← (match filterBlocks "task" listVal with
        | [] => pure []
        | o => do
          let tasks ← wrapErr "task:" (parseTasks name "" o)
          pure (tasks.map fun t => ({ Name := some t.Name, Tasks := [t] } : TaskGroup)))
      let tgs1 ← (match filterBlocks "group" listVal with
        | [] => pure tgs0
        | o => do
          let gs ← wrapErr "group:" (parseGroups name o)
          pure (tgs0 ++ gs))
      let tgs2 ← (match filterBlocks "vault" listVal with
        | [] => pure tgs1
        | o => do
          let jobVault ← wrapErr "vault ->" (parseVault vaultDefaults o)
          pure (tgs1.map fun tg => { tg with Tasks := pushVault jobVault tg.Tasks }))
      pure { ID := some id, Name := some name, Region := region, Namespace := namespace1,
             JobType := jtype, Priority := priority, AllAtOnce := allAtOnce,
             Datacenters := datacenters, VaultToken := vaultToken,
             Constraints := constraints, Affinities := affinities, Update := update,
             Periodic := periodic, Spreads := spreads, ParameterizedJob := pjob,
             Reschedule := resched, Migrate := migrate, Meta := meta, TaskGroups := tgs2 }
    | _ => .err ("job '" ++ jobKey ++ "' value: should be an object")

/-- Parse: the entry point over the already-tokenized root object list;
validates the single top-level job key and delegates to parseJob, wrapping
its errors. -/
def Parse (root : List ObjItem) : PRes Job := do
  checkHCLKeys root ["job"]
  let jobMatches := filterBlocks "job" root
  if jobMatches.isEmpty then .err "'job' stanza not found"
  else
    match parseJob jobMatches with
    | .ok job => .ok job
    | .err e => .err ("error parsing 'job': " ++ e)
    | .panic p => .panic p

/-! Inputs and expected values used to settle the claims. -/

/-- Structural decode of one declared port, without the label checks (used
to state the reserved/dynamic classification of parsePorts). -/
def decodePortItem (it : ObjItem) : PRes Port :=
  match it.1 with
  | [] => .err "ports must be named"
  | label :: _ => do
    let v ← decodePortVal it.2
    pure { Label := label, Value := v }

/-- Network block with two ports whose labels differ only by case. -/
def c6DupInput : List ObjItem :=
  [(["port", "Web"], .obj []), (["port", "web"], .obj [])]

/-- Minimal valid job: an id, one bare task with a driver and an empty
config block, and no other blocks. -/
def c7Input : List ObjItem :=
  [(["job", "test"], .obj
    [(["task", "t"], .obj
      [(["driver"], .str "docker"),
       (["config"], .obj [])])])]

/-- Expected transform of the minimal job. -/
def c7Expected : Job :=
  { ID := some "test", Name := some "test",
    TaskGroups := [{ Name := some "t", Tasks := [{ Name := "t", Driver := "docker" }] }] }

/-- Job declaring a bare task named web and an explicit group also named
web. -/
def c2MixedInput : List ObjItem :=
  [(["job", "j"], .obj
    [(["task", "web"], .obj [(["driver"], .str "exec")]),
     (["group", "web"], .obj
       [(["task", "api"], .obj [(["driver"], .str "exec")])])])]

/-- Transform of c2MixedInput: accepted, with two task groups sharing the
name web. -/
def c2MixedExpected : Job :=
  { ID := some "j", Name := some "j",
    TaskGroups :=
      [{ Name := some "web", Tasks := [{ Name := "web", Driver := "exec" }] },
       { Name := some "web", Tasks := [{ Name := "api", Driver := "exec" }] }] }

/-- Job declaring two explicit groups sharing the name web. -/
def c2DupExplicitInput : List ObjItem :=
  [(["job", "j"], .obj
    [(["group", "web"], .obj [(["task", "a"], .obj [(["driver"], .str "exec")])]),
     (["group", "web"], .obj [(["task", "b"], .obj [(["driver"], .str "exec")])])])]

/-- Job declaring two bare tasks sharing the name web. -/
def c2DupBareInput : List ObjItem :=
  [(["job", "j"], .obj
    [(["task", "web"], .obj [(["driver"], .str "exec")]),
     (["task", "web"], .obj [(["driver"], .str "exec")])])]

/-- Task block with an unknown key inside a group (the driver value is
deliberately undecodable, so reaching the decode would raise a different
error than the schema error). -/
def c8GroupedInput : List ObjItem :=
  [(["job", "j"], .obj
    [(["group", "grp"], .obj
      [(["task", "api"], .obj
        [(["driver"], .str "exec"), (["bogus_field"], .bool true)])])])]

/-- Bare task block with an unknown key and an undecodable driver value. -/
def c8BareInput : List ObjItem :=
  [(["job", "j"], .obj
    [(["task", "api"], .obj
      [(["driver"], .list [.obj []]), (["bogus_field"], .bool true)])])]

/-- Job whose named singleton block carries an extra name label. -/
def c9JobScope (b : String) : List ObjItem :=
  [(["job", "j"], .obj [([b, "x"], .obj [])])]

/-- Job with a group whose named singleton block carries an extra name
label. -/
def c9GroupScope (b : String) : List ObjItem :=
  [(["job", "j"], .obj [(["group", "g"], .obj [([b, "x"], .obj [])])])]

/-- Job-scope vault block written with an extra name label and a policies
attribute. -/
def c10JobInput : List ObjItem :=
  [(["job", "j"], .obj
    [(["task", "t"], .obj [(["driver"], .str "exec")]),
     (["vault", "x"], .obj [(["policies"], .list [.str "p"])])])]

/-- Group-scope vault block written with an extra name label. -/
def c10GroupInput : List ObjItem :=
  [(["job", "j"], .obj
    [(["group", "g"], .obj
      [(["task", "t"], .obj [(["driver"], .str "exec")]),
       (["vault", "x"], .obj [(["policies"], .list [.str "p"])])])])]

/-- Task-scope vault block written with an extra name label. -/
def c10TaskInput : List ObjItem :=
  [(["job", "j"], .obj
    [(["task", "t"], .obj
      [(["driver"], .str "exec"),
       (["vault", "x"], .obj [(["policies"], .list [.str "p"])])])])]

/-- Expected transform of c10JobInput: the task holds only the
caller-injected vault defaults. -/
def c10JobExpected : Job :=
  { ID := some "j", Name := some "j",
    TaskGroups := [{ Name := some "t",
                     Tasks := [{ Name := "t", Driver := "exec", Vault := some vaultDefaults }] }] }

/-- Expected transform of c10GroupInput. -/
def c10GroupExpected : Job :=
  { ID := some "j", Name := some "j",
    TaskGroups := [{ Name := some "g",
                     Tasks := [{ Name := "t", Driver := "exec", Vault := some vaultDefaults }] }] }

/-- Expected transform of c10TaskInput. -/
def c10TaskExpected : Job :=
  { ID := some "j", Name := some "j",
    TaskGroups := [{ Name := some "t",
                     Tasks := [{ Name := "t", Driver := "exec", Vault := some vaultDefaults }] }] }

/-- Constraint entry with a version alias overriding a plain operator and
value. -/
def c4VersionEntry : CEntry :=
  { version := some (.str "2.0"), operator := some (.str ">="), value := some (.str "1.0") }

/-- Constraint entry with no operand set by any attribute or alias. -/
def c4PlainEntry : CEntry :=
  { attr := some (.str "a"), value := some (.str "linux") }

/-- Affinity entry with no operand set by any attribute or alias. -/
def c4PlainAffinityEntry : AEntry :=
  { attr := some (.str "a"), value := some (.str "linux"), weight := some (.num 50) }

/-! Parametric job family for the vault cascade claim: a job-level vault
block with arbitrary policies, and arbitrarily many groups, each optionally
declaring its own vault block and holding arbitrarily many tasks, each
optionally declaring its own vault block. -/

/-- Group description of the vault-cascade family: name, optional group
vault policies, and the tasks (name, optional own vault policies). -/
abbrev GSpec := String × Option (List String) × List (String × Option (List String))

/-- Vault block body carrying a policies list. -/
def vaultBodyNode (ps : List String) : Node :=
  .obj [(["policies"], .list (ps.map Node.str))]

/-- Vault block carrying a policies list. -/
def vaultBlockItem (ps : List String) : ObjItem :=
  (["vault"], vaultBodyNode ps)

/-- Optional vault block of the family. -/
def vaultPart (v : Option (List String)) : List ObjItem :=
  match v with
  | none => []
  | some ps => [vaultBlockItem ps]

/-- Optional vault block of the family with its vault key already stripped
by the filter. -/
def vaultStripped (v : Option (List String)) : List ObjItem :=
  match v with
  | none => []
  | some ps => [([], vaultBodyNode ps)]

/-- Task block body of the family: a driver attribute and an optional vault
block. -/
def c1TaskBody (v : Option (List String)) : Node :=
  .obj ((["driver"], Node.str "exec") :: vaultPart v)

/-- Task block of the family. -/
def c1TaskItem (t : String × Option (List String)) : ObjItem :=
  (["task", t.1], c1TaskBody t.2)

/-- Group block body of the family: its tasks followed by an optional group
vault block. -/
def c1GroupBody (g : GSpec) : Node :=
  .obj ((g.2.2.map c1TaskItem) ++ vaultPart g.2.1)

/-- Group block of the family. -/
def c1GroupItem (g : GSpec) : ObjItem :=
  (["group", g.1], c1GroupBody g)

/-- Job of the family: the groups followed by a job-level vault block. -/
def c1JobInput (jps : List String) (gs : List GSpec) : List ObjItem :=
  [(["job", "j"], .obj ((gs.map c1GroupItem) ++ [vaultBlockItem jps]))]

/-- Vault configuration holding the given policies over the injected
defaults. -/
def mkVaultPolicies (ps : List String) : Vault :=
  { Policies := ps, Env := some true, ChangeMode := some "restart" }

/-- Family task as parsed before any vault inheritance: its own vault when
declared, none otherwise. -/
def c1PreTask (t : String × Option (List String)) : Task :=
  { Name := t.1, Driver := "exec",
    Vault := match t.2 with | some ps => some (mkVaultPolicies ps) | none => none }

/-- Family task after the group-level vault push-down. -/
def c1GroupTask (gv : Option (List String)) (t : String × Option (List String)) : Task :=
  { Name := t.1, Driver := "exec",
    Vault := match t.2 with
      | some ps => some (mkVaultPolicies ps)
      | none => match gv with
        | some gps => some (mkVaultPolicies gps)
        | none => none }

/-- Family task after the job-level vault cascade: its own vault block wins,
then the group vault block, then the job vault. -/
def c1ExpectedTask (jps : List String) (gv : Option (List String))
    (t : String × Option (List String)) : Task :=
  { Name := t.1, Driver := "exec",
    Vault := some (mkVaultPolicies (match t.2 with
      | some ps => ps
      | none => match gv with
        | some gps => gps
        | none => jps)) }

/-- Family group as parsed before the job-level cascade. -/
def c1PreGroup (g : GSpec) : TaskGroup :=
  { Name := some g.1, Tasks := g.2.2.map (c1GroupTask g.2.1) }

/-- Family group after the job-level cascade. -/
def c1ExpectedGroup (jps : List String) (g : GSpec) : TaskGroup :=
  { Name := some g.1, Tasks := g.2.2.map (c1ExpectedTask jps g.2.1) }

/-- Expected transform of the family job. -/
def c1Expected (jps : List String) (gs : List GSpec) : Job :=
  { ID := some "j", Name := some "j", TaskGroups := gs.map (c1ExpectedGroup jps) }

/-! Helper lemmas. -/

theorem PRes.mbind_ok_iff {α β : Type} {x : PRes α} {f : α → PRes β} {b : β} :
    x >>= f = .ok b ↔ ∃ a, x = .ok a ∧ f a = .ok b := by
  cases x <;> simp [Bind.bind, PRes.bind]

theorem mapMPRes_length {α β : Type} {f : α → PRes β} :
    ∀ {xs : List α} {ys : List β}, mapMPRes f xs = .ok ys → ys.length = xs.length := by
  intro xs
  induction xs with
  | nil => intro ys h; simp [mapMPRes] at h; simp [← h]
  | cons a rest ih =>
    intro ys h
    simp only [mapMPRes] at h
    rw [PRes.mbind_ok_iff] at h
    obtain ⟨b, _, h⟩ := h
    rw [PRes.mbind_ok_iff] at h
    obtain ⟨bs, hbs, h⟩ := h
    simp only [PRes.pure_eq_ok, PRes.ok.injEq] at h
    subst h
    simp [ih hbs]

theorem length_filter_bool_split {α : Type} (p : α → Bool) (l : List α) :
    (l.filter p).length + (l.filter (fun a => !(p a))).length = l.length := by
  induction l with
  | nil => simp
  | cons a rest ih =>
    cases h : p a <;> simp [List.filter, h] <;> omega

theorem weakInt_no_panic (v : Node) (p : String) : weakInt v ≠ .panic p := by
  cases v <;> simp [weakInt]
  case str s => cases s.toInt? <;> simp

theorem decodePortVal_no_panic (v : Node) (p : String) : decodePortVal v ≠ .panic p := by
  cases v <;> simp [decodePortVal]
  case obj items =>
    cases attrOf items "static" with
    | none => simp
    | some x => simp [weakInt_no_panic]

theorem checkHCLKeys_no_panic (items : List ObjItem) (valid : List String) (p : String) :
    checkHCLKeys items valid ≠ .panic p := by
  induction items with
  | nil => simp [checkHCLKeys]
  | cons it rest ih =>
    simp only [checkHCLKeys]
    cases it.1 with
    | nil => exact ih
    | cons k _ =>
      by_cases hk : k ∈ valid <;> simp [hk, ih]

/-! Claim theorems. -/

/-- C7: transforming a minimal valid job (an id, one bare task with a
driver and empty config, no other blocks) produces a JobSpec whose name
equals its id, whose task-group list contains exactly one synthesized group
named after the task and containing exactly that task, and all optional
sub-specs (update, periodic, reschedule, migrate, parameterized, vault) nil
or empty. -/
theorem c7_minimal_roundtrip :
    Parse c7Input = PRes.ok c7Expected ∧
    c7Expected.Name = c7Expected.ID ∧
    c7Expected.TaskGroups.map TaskGroup.Name = [some "t"] ∧
    c7Expected.TaskGroups.map (fun g => g.Tasks.map Task.Name) = [["t"]] ∧
    c7Expected.Update = none ∧
    c7Expected.Periodic = none ∧
    c7Expected.Reschedule = none ∧
    c7Expected.Migrate = none ∧
    c7Expected.ParameterizedJob = none ∧
    c7Expected.TaskGroups.map (fun g => g.Tasks.map Task.Vault) = [[none]] := by
  refine ⟨by rfl, by rfl, by rfl, by rfl, by rfl, by rfl, by rfl, by rfl, by rfl, by rfl⟩

/-- C8: a task block holding a key outside the task whitelist makes the
transform fail before decoding that task (both inputs also carry a driver
value that would fail the decode, yet the schema error wins), and the
hierarchical path prefix of the error names the task and, when present, its
enclosing group. -/
theorem c8_unknown_task_key :
    Parse c8GroupedInput =
      PRes.err "error parsing 'job': group: 'grp', task: 'api' -> invalid key: bogus_field" ∧
    Parse c8BareInput =
      PRes.err "error parsing 'job': task: 'api' -> invalid key: bogus_field" := by
  exact ⟨by rfl, by rfl⟩

/-- C9: every singleton policy block written with an extra name label
(update, periodic, reschedule, migrate, parameterized at job scope;
restart, ephemeral_disk at group scope) leaves the element-filtered list
empty, and the unconditional read of its first item is an out-of-bounds
index: the transform panics instead of returning an error. -/
theorem c9_labelled_singleton_panics :
    Parse (c9JobScope "update") = PRes.panic "runtime error: index out of range" ∧
    Parse (c9JobScope "periodic") = PRes.panic "runtime error: index out of range" ∧
    Parse (c9JobScope "reschedule") = PRes.panic "runtime error: index out of range" ∧
    Parse (c9JobScope "migrate") = PRes.panic "runtime error: index out of range" ∧
    Parse (c9JobScope "parameterized") = PRes.panic "runtime error: index out of range" ∧
    Parse (c9GroupScope "restart") = PRes.panic "runtime error: index out of range" ∧
    Parse (c9GroupScope "ephemeral_disk") = PRes.panic "runtime error: index out of range" := by
  refine ⟨by rfl, by rfl, by rfl, by rfl, by rfl, by rfl, by rfl⟩

/-- C10: a vault block written with an extra name label at job, group or
task scope is silently ignored by parseVault (the element-filtered list is
empty, so it returns without decoding or reporting an error): the resulting
task vault holds only the caller-injected defaults (env true, change mode
restart) and the author's policies are dropped. -/
theorem c10_labelled_vault_ignored :
    Parse c10JobInput = PRes.ok c10JobExpected ∧
    Parse c10GroupInput = PRes.ok c10GroupExpected ∧
    Parse c10TaskInput = PRes.ok c10TaskExpected ∧
    c10JobExpected.TaskGroups.map (fun g => g.Tasks.map Task.Vault) = [[some vaultDefaults]] ∧
    c10GroupExpected.TaskGroups.map (fun g => g.Tasks.map Task.Vault) = [[some vaultDefaults]] ∧
    c10TaskExpected.TaskGroups.map (fun g => g.Tasks.map Task.Vault) = [[some vaultDefaults]] ∧
    vaultDefaults.Policies = [] ∧
    vaultDefaults.Env = some true ∧
    vaultDefaults.ChangeMode = some "restart" := by
  refine ⟨by rfl, by rfl, by rfl, by rfl, by rfl, by rfl, by rfl, by rfl, by rfl⟩

/-- C2 counterexample: a job declaring a bare task named web (which is
synthesized into a single-task group named web) together with an explicit
group also named web is accepted by the transform, and its resulting
task-group list carries the name web twice — so task-group names are not
unique within every accepted job. -/
theorem c2_counterexample :
    Parse c2MixedInput = PRes.ok c2MixedExpected ∧
    c2MixedExpected.TaskGroups.map TaskGroup.Name = [some "web", some "web"] := by
  exact ⟨by rfl, by rfl⟩

/-- C3 counterexample: a constraint entry with distinct_hosts true and a
plain value foo yields a constraint whose right-target is foo, not empty —
the plain value is not ignored. -/
theorem c3_counterexample :
    parseConstraintEntry { distinct_hosts := some (.bool true), value := some (.str "foo") } =
      PRes.ok (some { LTarget := "", RTarget := "foo", Operand := "distinct_hosts" }) ∧
    ("foo" : String) ≠ "" := by
  exact ⟨by rfl, by decide⟩


/-! Port classification lemmas and claims C5 and C6. -/

theorem parsePortsLoop_spec :
    ∀ (items : List ObjItem) (known : List String) (res dyn R D : List Port),
      parsePortsLoop items known res dyn = .ok (R, D) →
      ∃ ps, mapMPRes decodePortItem items = .ok ps ∧
        R = res ++ ps.filter (fun p => decide (0 < p.Value)) ∧
        D = dyn ++ ps.filter (fun p => !(decide (0 < p.Value))) := by
  intro items
  induction items with
  | nil =>
    intro known res dyn R D h
    simp only [parsePortsLoop, PRes.ok.injEq, Prod.mk.injEq] at h
    exact ⟨[], by simp [mapMPRes], by simp [h.1], by simp [h.2]⟩
  | cons port rest ih =>
    intro known res dyn R D h
    obtain ⟨keys, val⟩ := port
    simp only [parsePortsLoop] at h
    cases keys with
    | nil => simp at h
    | cons label ks =>
      by_cases hvl : validPortLabel label
      · simp only [hvl, Bool.not_true, Bool.false_eq_true, if_false, reduceIte] at h
        by_cases hkn : known.contains (strLower label) = true
        · rw [if_pos hkn] at h
          simp at h
        · rw [if_neg hkn] at h
          cases hd : decodePortVal val with
          | err e => rw [hd] at h; simp at h
          | panic p => rw [hd] at h; simp at h
          | ok v =>
            rw [hd] at h
            simp only at h
            by_cases h0 : (0 : Int) < v
            · simp only [h0, if_true, reduceIte] at h
              obtain ⟨ps, hps, hR, hD⟩ := ih _ _ _ _ _ h
              refine ⟨{ Label := label, Value := v } :: ps, ?_, ?_, ?_⟩
              · simp [mapMPRes, decodePortItem, hd, hps]
              · simp [hR, List.filter_cons, h0]
              · simp [hD, List.filter_cons, h0]
            · simp only [h0, if_false, reduceIte] at h
              obtain ⟨ps, hps, hR, hD⟩ := ih _ _ _ _ _ h
              refine ⟨{ Label := label, Value := v } :: ps, ?_, ?_, ?_⟩
              · simp [mapMPRes, decodePortItem, hd, hps]
              · simp [hR, List.filter_cons, h0]
              · simp [hD, List.filter_cons, h0]
      · simp [hvl] at h


/-- C5: for every network block on which parsePorts succeeds, the declared
ports decode in order and are split exactly: the reserved list is the ports
with positive value, the dynamic list is the rest (zero, negative, or no
value), every declared port lands in exactly one of the two lists, and the
two lengths add up to the number of declared ports. -/
theorem c5_port_split :
    ∀ (network : List ObjItem) (R D : List Port),
      parsePorts network = .ok (R, D) →
      ∃ ps, mapMPRes decodePortItem (filterBlocks "port" network) = .ok ps ∧
        R = ps.filter (fun p => decide (0 < p.Value)) ∧
        D = ps.filter (fun p => !(decide (0 < p.Value))) ∧
        ps.length = (filterBlocks "port" network).length ∧
        (∀ p ∈ R, 0 < p.Value) ∧ (∀ p ∈ D, ¬ 0 < p.Value) ∧
        R.length + D.length = (filterBlocks "port" network).length := by
  intro network R D h
  unfold parsePorts at h
  rw [PRes.mbind_ok_iff] at h
  obtain ⟨u, _, h⟩ := h
  obtain ⟨ps, hps, hR, hD⟩ := parsePortsLoop_spec _ _ _ _ _ _ h
  simp only [List.nil_append] at hR hD
  refine ⟨ps, hps, hR, hD, mapMPRes_length hps, ?_, ?_, ?_⟩
  · intro p hp
    rw [hR] at hp
    simpa using (List.mem_filter.mp hp).2
  · intro p hp
    rw [hD] at hp
    simpa using (List.mem_filter.mp hp).2
  · rw [hR, hD, ← mapMPRes_length hps]
    exact length_filter_bool_split _ ps

theorem parsePortsLoop_badLabel :
    ∀ (items : List ObjItem) (known : List String) (res dyn : List Port),
      (∃ it ∈ items, ∃ l ks, it.1 = l :: ks ∧ validPortLabel l = false) →
      (parsePortsLoop items known res dyn).isErr := by
  intro items
  induction items with
  | nil =>
    intro known res dyn h
    obtain ⟨it, hmem, _⟩ := h
    exact absurd hmem (List.not_mem_nil it)
  | cons port rest ih =>
    intro known res dyn h
    obtain ⟨it, hmem, l, ks, hkeys, hbad⟩ := h
    obtain ⟨keys, val⟩ := port
    rcases List.mem_cons.mp hmem with heq | hmem2
    · subst heq
      simp only at hkeys
      subst hkeys
      simp [parsePortsLoop, hbad, PRes.isErr]
    · simp only [parsePortsLoop]
      cases keys with
      | nil => simp [PRes.isErr]
      | cons label ks2 =>
        by_cases hvl : validPortLabel label
        · simp only [hvl, Bool.not_true, Bool.false_eq_true, if_false, reduceIte]
          by_cases hkn : known.contains (strLower label) = true
          · rw [if_pos hkn]; simp [PRes.isErr]
          · rw [if_neg hkn]
            cases hd : decodePortVal val with
            | err e => simp [PRes.isErr]
            | panic p => exact absurd hd (decodePortVal_no_panic val p)
            | ok v =>
              by_cases h0 : (0 : Int) < v
              · simp only [h0, if_true, reduceIte]
                exact ih _ _ _ ⟨it, hmem2, l, ks, hkeys, hbad⟩
              · simp only [h0, if_false, reduceIte]
                exact ih _ _ _ ⟨it, hmem2, l, ks, hkeys, hbad⟩
        · simp [hvl, PRes.isErr]

/-- C6: a port whose label fails the identifier pattern makes parsePorts
fail, and two ports whose labels are equal case-insensitively in the same
network block make it fail with a duplicate-label error naming the
colliding label. -/
theorem c6_label_rules :
    (∀ (network : List ObjItem) (it : ObjItem) (l : String) (ks : List String),
       it ∈ filterBlocks "port" network → it.1 = l :: ks → validPortLabel l = false →
       (parsePorts network).isErr) ∧
    parsePorts c6DupInput = PRes.err "found a port label collision: web" := by
  constructor
  · intro network it l ks hmem hkeys hbad
    unfold parsePorts
    cases hc : checkHCLKeys network ["mbits", "port"] with
    | err e => simp [Bind.bind, PRes.bind, hc, PRes.isErr]
    | panic p => exact absurd hc (checkHCLKeys_no_panic network _ p)
    | ok u =>
      simp only [Bind.bind, PRes.bind, hc]
      exact parsePortsLoop_badLabel _ _ _ _ ⟨it, hmem, l, ks, hkeys, hbad⟩
  · rfl

theorem c6_label_rules_witness :
    (parsePorts [(["port", "bad!label"], Node.obj [])]).isErr :=
  c6_label_rules.1 [(["port", "bad!label"], Node.obj [])] (["bad!label"], Node.obj [])
    "bad!label" [] (by simp [filterBlocks, keyMatches]) rfl (by rfl)

theorem c5_port_split_witness :
    ∃ ps, mapMPRes decodePortItem (filterBlocks "port"
        [(["port", "http"], Node.obj [(["static"], Node.num 80)]), (["port", "db"], Node.obj [])]) = .ok ps ∧
      [({ Label := "http", Value := 80 } : Port)] = ps.filter (fun p => decide (0 < p.Value)) ∧
      [({ Label := "db", Value := 0 } : Port)] = ps.filter (fun p => !(decide (0 < p.Value))) ∧
      ps.length = (filterBlocks "port"
        [(["port", "http"], Node.obj [(["static"], Node.num 80)]), (["port", "db"], Node.obj [])]).length ∧
      (∀ p ∈ [({ Label := "http", Value := 80 } : Port)], 0 < p.Value) ∧
      (∀ p ∈ [({ Label := "db", Value := 0 } : Port)], ¬ 0 < p.Value) ∧
      ([({ Label := "http", Value := 80 } : Port)]).length + ([({ Label := "db", Value := 0 } : Port)]).length =
        (filterBlocks "port"
        [(["port", "http"], Node.obj [(["static"], Node.num 80)]), (["port", "db"], Node.obj [])]).length :=
  c5_port_split _ _ _ (by rfl)



/-! Claims C3 (amended) and C4. -/

/-- C3 amended: for every constraint entry with a distinct_hosts value, a
non-boolean value fails the transform with a semantic error; a false value
(boolean or boolean-parsable string) omits the entry entirely; a true value
yields operand distinct_hosts whose right-target is empty only when no
plain value is present, while an also-present plain value is carried into
the right-target. -/
theorem c3_amended_thm :
    ∀ (e : CEntry) (v : Node), e.distinct_hosts = some v →
      ((∀ m, parseBool v = .err m →
          parseConstraintEntry e = .err ("distinct_hosts should be set to true or false; " ++ m)) ∧
       (parseBool v = .ok false → parseConstraintEntry e = .ok none) ∧
       (parseBool v = .ok true → e.version = none → e.regexp = none → e.set_contains = none →
        e.distinct_property = none →
        ∀ la, ((e.attr = none ∧ la = "") ∨ (∃ t, e.attr = some (.str t) ∧ la = t)) →
          ((e.value = none →
              parseConstraintEntry e =
                .ok (some { LTarget := la, RTarget := "", Operand := "distinct_hosts" })) ∧
           (∀ s, e.value = some (.str s) →
              parseConstraintEntry e =
                .ok (some { LTarget := la, RTarget := s, Operand := "distinct_hosts" }))))) := by
  intro e v hdh
  refine ⟨?_, ?_, ?_⟩
  · intro m hb
    simp only [parseConstraintEntry, hdh, hb]
  · intro hb
    simp only [parseConstraintEntry, hdh, hb, Bool.not_false, if_true, reduceIte]
  · intro hb hv hr hs hdp la hla
    constructor
    · intro hval
      simp only [parseConstraintEntry, hdh, hb, hv, hr, hs, hval, Bool.not_true, reduceIte,
                 distinctPropertyStep, hdp, buildConstraint]
      rcases hla with ⟨ha, hla⟩ | ⟨t, ha, hla⟩ <;> subst hla <;>
        simp [ha, weakString, Bind.bind, PRes.bind]
    · intro s hval
      simp only [parseConstraintEntry, hdh, hb, hv, hr, hs, hval, Bool.not_true, reduceIte,
                 distinctPropertyStep, hdp, buildConstraint]
      rcases hla with ⟨ha, hla⟩ | ⟨t, ha, hla⟩ <;> subst hla <;>
        simp [ha, weakString, Bind.bind, PRes.bind]


/-- C4: a constraint entry providing version v resolves to operand version
and right-target v regardless of any also-present plain operator and value;
and any constraint or affinity entry where no operand is ultimately set by
attribute or alias defaults to the equality operand. -/
theorem c4_alias_and_default :
    (∀ (e : CEntry) (s : String),
       e.version = some (.str s) → e.regexp = none → e.set_contains = none →
       e.distinct_hosts = none → e.distinct_property = none →
       (e.attr = none ∨ ∃ t, e.attr = some (.str t)) →
       ∃ c, parseConstraintEntry e = .ok (some c) ∧ c.Operand = "version" ∧ c.RTarget = s) ∧
    (∀ (e : CEntry),
       (e.operator = none ∨ e.operator = some (.str "")) →
       e.version = none → e.regexp = none → e.set_contains = none →
       e.distinct_hosts = none → e.distinct_property = none →
       (e.attr = none ∨ ∃ t, e.attr = some (.str t)) →
       (e.value = none ∨ ∃ u, e.value = some (.str u)) →
       ∃ c, parseConstraintEntry e = .ok (some c) ∧ c.Operand = "=") ∧
    (∀ (a : AEntry),
       (a.operator = none ∨ a.operator = some (.str "")) →
       a.version = none → a.regexp = none → a.set_contains = none →
       a.set_contains_any = none → a.set_contains_all = none →
       (a.attr = none ∨ ∃ t, a.attr = some (.str t)) →
       (a.value = none ∨ ∃ u, a.value = some (.str u)) →
       (a.weight = none ∨ ∃ k, a.weight = some (.num k)) →
       ∃ c, parseAffinityEntry a = .ok (some c) ∧ c.Operand = "=") := by
  refine ⟨?_, ?_, ?_⟩
  · intro e s hv hr hs hdh hdp hattr
    rcases hattr with ha | ⟨t, ha⟩
    · refine ⟨{ LTarget := "", RTarget := s, Operand := "version" }, ?_, rfl, rfl⟩
      simp [parseConstraintEntry, hv, hr, hs, hdh, hdp, distinctPropertyStep, buildConstraint,
            ha, weakString, Bind.bind, PRes.bind]
    · refine ⟨{ LTarget := t, RTarget := s, Operand := "version" }, ?_, rfl, rfl⟩
      simp [parseConstraintEntry, hv, hr, hs, hdh, hdp, distinctPropertyStep, buildConstraint,
            ha, weakString, Bind.bind, PRes.bind]
  · intro e hop hv hr hs hdh hdp hattr hval
    rcases hattr with ha | ⟨t, ha⟩ <;> rcases hval with hu | ⟨u, hu⟩ <;>
      rcases hop with ho | ho
    all_goals exact ⟨_, by simp [parseConstraintEntry, hv, hr, hs, hdh, hdp, distinctPropertyStep,
                    buildConstraint, ha, hu, ho, weakString, Bind.bind, PRes.bind]; rfl, rfl⟩
  · intro a hop hv hr hs hsa hsall hattr hval hw
    rcases hattr with ha | ⟨t, ha⟩ <;> rcases hval with hu | ⟨u, hu⟩ <;>
      rcases hop with ho | ho <;> rcases hw with hk | ⟨k, hk⟩
    all_goals exact ⟨_, by simp [parseAffinityEntry, hv, hr, hs, hsa, hsall, buildAffinity,
                    ha, hu, ho, hk, weakString, weakInt, Bind.bind, PRes.bind]; rfl, rfl⟩


theorem c3_amended_witness :
    parseConstraintEntry { distinct_hosts := some (.str "false"), value := some (.str "v") } = .ok none ∧
    parseConstraintEntry { distinct_hosts := some (.bool true), value := some (.str "v"),
                           attr := some (.str "a") } =
      .ok (some { LTarget := "a", RTarget := "v", Operand := "distinct_hosts" }) ∧
    parseConstraintEntry { distinct_hosts := some (.bool true), attr := some (.str "a") } =
      .ok (some { LTarget := "a", RTarget := "", Operand := "distinct_hosts" }) ∧
    parseConstraintEntry { distinct_hosts := some (.num 3) } =
      .err ("distinct_hosts should be set to true or false; " ++ "value couldn't be converted to boolean value") :=
  ⟨(c3_amended_thm _ _ rfl).2.1 (by rfl),
   ((c3_amended_thm _ _ rfl).2.2 (by rfl) rfl rfl rfl rfl "a" (Or.inr ⟨"a", rfl, rfl⟩)).2 "v" rfl,
   ((c3_amended_thm _ _ rfl).2.2 (by rfl) rfl rfl rfl rfl "a" (Or.inr ⟨"a", rfl, rfl⟩)).1 rfl,
   (c3_amended_thm _ _ rfl).1 _ (by rfl)⟩

theorem c4_alias_and_default_witness :
    (∃ c, parseConstraintEntry c4VersionEntry = .ok (some c) ∧
      c.Operand = "version" ∧ c.RTarget = "2.0") ∧
    (∃ c, parseConstraintEntry c4PlainEntry = .ok (some c) ∧ c.Operand = "=") ∧
    (∃ c, parseAffinityEntry c4PlainAffinityEntry = .ok (some c) ∧ c.Operand = "=") :=
  ⟨c4_alias_and_default.1 c4VersionEntry "2.0" rfl rfl rfl rfl rfl (Or.inl rfl),
   c4_alias_and_default.2.1 c4PlainEntry (Or.inl rfl) rfl rfl rfl rfl rfl
     (Or.inr ⟨"a", rfl⟩) (Or.inr ⟨"linux", rfl⟩),
   c4_alias_and_default.2.2 c4PlainAffinityEntry (Or.inl rfl) rfl rfl rfl rfl rfl
     (Or.inr ⟨"a", rfl⟩) (Or.inr ⟨"linux", rfl⟩) (Or.inr ⟨50, rfl⟩)⟩



/-! Claim C2 (amended). -/

theorem parseOneGroup_name (jn n : String) (lv : List ObjItem) (g : TaskGroup)
    (h : parseOneGroup jn n lv = .ok g) : g.Name = some n := by
  unfold parseOneGroup at h
  iterate 13 obtain ⟨_, _, h⟩ := PRes.mbind_ok_iff.mp h
  simp only [PRes.pure_eq_ok, PRes.ok.injEq] at h
  subst h
  rfl


theorem parseGroupsList_distinct :
    ∀ (jobName : String) (items : List ObjItem) (seen : List String) (tgs : List TaskGroup),
      parseGroupsList jobName items seen = .ok tgs →
      (∀ tg ∈ tgs, ∃ n, tg.Name = some n ∧ seen.contains n = false) ∧
      (tgs.map TaskGroup.Name).Pairwise (· ≠ ·) := by
  intro jobName items
  induction items with
  | nil =>
    intro seen tgs h
    simp only [parseGroupsList, PRes.ok.injEq] at h
    subst h
    exact ⟨by intro tg htg; exact absurd htg (List.not_mem_nil tg), by simp⟩
  | cons item rest ih =>
    intro seen tgs h
    obtain ⟨keys, val⟩ := item
    cases keys with
    | nil => simp [parseGroupsList] at h
    | cons n ks =>
      simp only [parseGroupsList] at h
      by_cases hn : seen.contains n = true
      · rw [if_pos hn] at h; simp at h
      · rw [if_neg hn] at h
        cases val with
        | obj listVal =>
          simp only at h
          rw [PRes.mbind_ok_iff] at h
          obtain ⟨g, hg, h⟩ := h
          rw [PRes.mbind_ok_iff] at h
          obtain ⟨tgs1, htgs1, h⟩ := h
          simp only [PRes.pure_eq_ok, PRes.ok.injEq] at h
          subst h
          have hname := parseOneGroup_name _ _ _ _ hg
          obtain ⟨hmem, hpw⟩ := ih _ _ htgs1
          constructor
          · intro tg htg
            rcases List.mem_cons.mp htg with heq | htg2
            · subst heq
              exact ⟨n, hname, Bool.of_not_eq_true hn⟩
            · obtain ⟨m, hm, hcont⟩ := hmem tg htg2
              refine ⟨m, hm, ?_⟩
              simp only [List.contains_cons] at hcont
              exact (Bool.or_eq_false_iff.mp hcont).2
          · rw [List.map_cons]
            refine List.Pairwise.cons ?_ hpw
            intro nm hnm heq
            obtain ⟨tg2, htg2, hnm2⟩ := List.mem_map.mp hnm
            obtain ⟨m, hm, hcont⟩ := hmem tg2 htg2
            rw [← hnm2, hm] at heq
            rw [hname] at heq
            have : n = m := Option.some.inj heq
            subst this
            simp only [List.contains_cons] at hcont
            simp at hcont
        | str s => simp at h
        | num i => simp at h
        | bool b => simp at h
        | list l => simp at h


/-- C2 amended: whenever the explicit-group transform succeeds its
task-group names are pairwise distinct (two explicit groups sharing a name
fail with a duplicate-name error naming that group, and two bare tasks
sharing a name likewise fail); uniqueness between synthesized single-task
groups and explicit group blocks is not enforced, as the counterexample
shows. -/
theorem c2_amended_thm :
    (∀ (jobName : String) (items : List ObjItem) (seen : List String) (tgs : List TaskGroup),
        parseGroupsList jobName items seen = .ok tgs →
        (tgs.map TaskGroup.Name).Pairwise (· ≠ ·)) ∧
    Parse c2DupExplicitInput =
      PRes.err "error parsing 'job': group: group 'web' defined more than once" ∧
    Parse c2DupBareInput =
      PRes.err "error parsing 'job': task: task 'web' defined more than once" := by
  refine ⟨?_, by rfl, by rfl⟩
  intro jn items seen tgs h
  exact (parseGroupsList_distinct jn items seen tgs h).2

theorem c2_amended_witness :
    (([{ Name := some "a" }, { Name := some "b" }] : List TaskGroup).map TaskGroup.Name).Pairwise (· ≠ ·) :=
  c2_amended_thm.1 "j" [(["a"], .obj []), (["b"], .obj [])] []
    [{ Name := some "a" }, { Name := some "b" }] (by rfl)



/-! Claim C1: the vault cascade over the parametric job family. -/

theorem mapMPRes_weakString_strs (ps : List String) :
    mapMPRes weakString (ps.map Node.str) = .ok ps := by
  induction ps with
  | nil => rfl
  | cons p rest ih => simp [mapMPRes, weakString, ih]

theorem parseVault_policies (ps : List String) :
    parseVault vaultDefaults [([], vaultBodyNode ps)] = .ok (mkVaultPolicies ps) := by
  simp [parseVault, elemItems, vaultBodyNode, checkHCLKeys, optStrList, optBool, optStr,
        attrOf, weakStringList, mapMPRes_weakString_strs, vaultDefaults, mkVaultPolicies,
        wrapErr]

theorem parseOneTask_c1 (jn tg : String) (t : String × Option (List String)) :
    parseOneTask jn tg t.1 ((["driver"], Node.str "exec") :: vaultPart t.2) = .ok (c1PreTask t) := by
  obtain ⟨nm, v⟩ := t
  cases v with
  | none => rfl
  | some ps =>
    simp only [vaultPart, vaultBlockItem, parseOneTask]
    rw [show checkHCLKeys [(["driver"], Node.str "exec"), (["vault"], vaultBodyNode ps)]
          ["artifact", "config", "constraint", "affinity", "dispatch_payload", "driver", "env",
           "kill_timeout", "leader", "logs", "meta", "resources", "service", "shutdown_delay",
           "template", "user", "vault", "kill_signal"] = .ok () from rfl]
    rw [show plainStr [(["driver"], Node.str "exec"), (["vault"], vaultBodyNode ps)] "driver" ""
          = .ok "exec" from rfl]
    rw [show plainStr [(["driver"], Node.str "exec"), (["vault"], vaultBodyNode ps)] "user" ""
          = .ok "" from rfl]
    rw [show optDur [(["driver"], Node.str "exec"), (["vault"], vaultBodyNode ps)] "kill_timeout" none
          = .ok none from rfl]
    rw [show plainBool [(["driver"], Node.str "exec"), (["vault"], vaultBodyNode ps)] "leader" false
          = .ok false from rfl]
    rw [show plainDur [(["driver"], Node.str "exec"), (["vault"], vaultBodyNode ps)] "shutdown_delay" 0
          = .ok 0 from rfl]
    rw [show plainStr [(["driver"], Node.str "exec"), (["vault"], vaultBodyNode ps)] "kill_signal" ""
          = .ok "" from rfl]
    rw [show filterBlocks "env" [(["driver"], Node.str "exec"), (["vault"], vaultBodyNode ps)]
          = [] from rfl]
    rw [show filterBlocks "service" [(["driver"], Node.str "exec"), (["vault"], vaultBodyNode ps)]
          = [] from rfl]
    rw [show filterBlocks "config" [(["driver"], Node.str "exec"), (["vault"], vaultBodyNode ps)]
          = [] from rfl]
    rw [show filterBlocks "constraint" [(["driver"], Node.str "exec"), (["vault"], vaultBodyNode ps)]
          = [] from rfl]
    rw [show filterBlocks "affinity" [(["driver"], Node.str "exec"), (["vault"], vaultBodyNode ps)]
          = [] from rfl]
    rw [show filterBlocks "meta" [(["driver"], Node.str "exec"), (["vault"], vaultBodyNode ps)]
          = [] from rfl]
    rw [show filterBlocks "resources" [(["driver"], Node.str "exec"), (["vault"], vaultBodyNode ps)]
          = [] from rfl]
    rw [show filterBlocks "logs" [(["driver"], Node.str "exec"), (["vault"], vaultBodyNode ps)]
          = [] from rfl]
    rw [show filterBlocks "artifact" [(["driver"], Node.str "exec"), (["vault"], vaultBodyNode ps)]
          = [] from rfl]
    rw [show filterBlocks "template" [(["driver"], Node.str "exec"), (["vault"], vaultBodyNode ps)]
          = [] from rfl]
    rw [show filterBlocks "vault" [(["driver"], Node.str "exec"), (["vault"], vaultBodyNode ps)]
          = [([], vaultBodyNode ps)] from rfl]
    rw [show filterBlocks "dispatch_payload" [(["driver"], Node.str "exec"), (["vault"], vaultBodyNode ps)]
          = [] from rfl]
    simp [c1PreTask, wrapErr, parseVault_policies]


theorem parseTasksList_c1 :
    ∀ (ts : List (String × Option (List String))) (jn tg : String) (seen : List String),
      ((ts.map fun t => t.1).Pairwise (· ≠ ·)) →
      (∀ t ∈ ts, seen.contains t.1 = false) →
      parseTasksList jn tg (ts.map fun t => ([t.1], c1TaskBody t.2)) seen = .ok (ts.map c1PreTask) := by
  intro ts
  induction ts with
  | nil => intro jn tg seen hpw hseen; rfl
  | cons t rest ih =>
    intro jn tg seen hpw hseen
    simp only [List.map_cons, parseTasksList]
    rw [if_neg (by rw [hseen t (List.mem_cons_self t rest)]; simp)]
    simp only [c1TaskBody]
    rw [parseOneTask_c1 jn (if (tg == "") = true then t.1 else tg) t]
    have hpw2 := List.Pairwise.of_cons hpw
    have hhead : ∀ y ∈ rest.map (fun t => t.1), t.1 ≠ y := (List.pairwise_cons.mp hpw).1
    have hseen2 : ∀ t2 ∈ rest, (t.1 :: seen).contains t2.1 = false := by
      intro t2 ht2
      simp only [List.contains_cons, Bool.or_eq_false_iff]
      refine ⟨?_, hseen t2 (List.mem_cons_of_mem t ht2)⟩
      have : t.1 ≠ t2.1 := hhead t2.1 (List.mem_map.mpr ⟨t2, ht2, rfl⟩)
      simp [beq_eq_false_iff_ne]
      exact fun hc => this hc.symm
    have ih2 := ih jn (if (tg == "") = true then t.1 else tg) (t.1 :: seen) hpw2 hseen2
    simp only [c1TaskBody] at ih2
    rw [ih2]
    rfl


theorem checkHCLKeys_c1groupbody (ts : List (String × Option (List String)))
    (gv : Option (List String)) :
    checkHCLKeys (ts.map c1TaskItem ++ vaultPart gv)
      ["count", "constraint", "affinity", "restart", "meta", "task", "ephemeral_disk",
       "update", "reschedule", "vault", "migrate", "spread"] = .ok () := by
  induction ts with
  | nil => cases gv <;> rfl
  | cons t rest ih =>
    simp only [List.map_cons, List.cons_append, checkHCLKeys, c1TaskItem]
    exact ih

theorem filterBlocks_c1groupbody_none (k : String) (ts : List (String × Option (List String)))
    (gv : Option (List String)) (h1 : keyMatches "task" k = false)
    (h2 : keyMatches "vault" k = false) :
    filterBlocks k (ts.map c1TaskItem ++ vaultPart gv) = [] := by
  induction ts with
  | nil =>
    cases gv with
    | none => rfl
    | some ps => simp [filterBlocks, vaultPart, vaultBlockItem, List.filterMap_cons, h2]
  | cons t rest ih =>
    simp only [List.map_cons, List.cons_append, filterBlocks, List.filterMap_cons,
               c1TaskItem, h1, Bool.false_eq_true, if_false, reduceIte] at ih ⊢
    exact ih

theorem filterBlocks_c1groupbody_task (ts : List (String × Option (List String)))
    (gv : Option (List String)) :
    filterBlocks "task" (ts.map c1TaskItem ++ vaultPart gv) =
      ts.map fun t => ([t.1], c1TaskBody t.2) := by
  induction ts with
  | nil =>
    cases gv with
    | none => rfl
    | some ps => rfl
  | cons t rest ih =>
    simp only [List.map_cons, List.cons_append, filterBlocks, List.filterMap_cons,
               c1TaskItem] at ih ⊢
    rw [show keyMatches "task" "task" = true from rfl]
    simp only [if_true, reduceIte]
    rw [ih]

theorem filterBlocks_c1groupbody_vault (ts : List (String × Option (List String)))
    (gv : Option (List String)) :
    filterBlocks "vault" (ts.map c1TaskItem ++ vaultPart gv) = vaultStripped gv := by
  induction ts with
  | nil =>
    cases gv with
    | none => rfl
    | some ps => rfl
  | cons t rest ih =>
    simp only [List.map_cons, List.cons_append, filterBlocks, List.filterMap_cons,
               c1TaskItem] at ih ⊢
    rw [show keyMatches "task" "vault" = false from rfl]
    simp only [Bool.false_eq_true, if_false, reduceIte]
    exact ih

theorem attrOf_c1groupbody (k : String) (ts : List (String × Option (List String)))
    (gv : Option (List String)) (h : ("vault" == k) = false) :
    attrOf (ts.map c1TaskItem ++ vaultPart gv) k = none := by
  refine List.findSome?_eq_none_iff.mpr ?_
  intro it hit
  rw [List.mem_reverse] at hit
  rcases List.mem_append.mp hit with hmem | hmem
  · obtain ⟨t, _, ht⟩ := List.mem_map.mp hmem
    rw [← ht]
    rfl
  · cases gv with
    | none => exact absurd hmem (List.not_mem_nil it)
    | some ps =>
      rcases List.mem_singleton.mp hmem with rfl
      simp only [vaultBlockItem, h]
      simp [h]


theorem c1GroupTask_none_fun : c1GroupTask none = c1PreTask := by
  funext t
  obtain ⟨nm, v⟩ := t
  cases v <;> rfl

theorem pushVault_c1 (gps : List String) (ts : List (String × Option (List String))) :
    pushVault (mkVaultPolicies gps) (ts.map c1PreTask) = ts.map (c1GroupTask (some gps)) := by
  simp only [pushVault, List.map_map]
  refine List.map_congr_left ?_
  intro t _
  obtain ⟨nm, v⟩ := t
  cases v <;> rfl

theorem childrenItems_c1tasks (ts : List (String × Option (List String))) :
    childrenItems (ts.map fun t => ([t.1], c1TaskBody t.2)) =
      ts.map fun t => ([t.1], c1TaskBody t.2) := by
  induction ts with
  | nil => rfl
  | cons t rest ih =>
    simp only [List.map_cons, childrenItems, List.filter_cons] at ih ⊢
    rw [ih]
    rfl

theorem parseOneGroup_c1 (jn : String) (g : GSpec)
    (ht : ((g.2.2).map fun t => t.1).Pairwise (· ≠ ·)) :
    parseOneGroup jn g.1 (g.2.2.map c1TaskItem ++ vaultPart g.2.1) = .ok (c1PreGroup g) := by
  obtain ⟨gn, gv, ts⟩ := g
  simp only at ht
  simp only [parseOneGroup, c1PreGroup]
  rw [checkHCLKeys_c1groupbody]
  rw [show optInt (ts.map c1TaskItem ++ vaultPart gv) "count" none =
        (match attrOf (ts.map c1TaskItem ++ vaultPart gv) "count" with
         | none => PRes.ok none
         | some v => do let n ← weakInt v; pure (some n)) from rfl]
  rw [attrOf_c1groupbody "count" ts gv (by rfl)]
  rw [filterBlocks_c1groupbody_none "constraint" ts gv (by rfl) (by rfl)]
  rw [filterBlocks_c1groupbody_none "affinity" ts gv (by rfl) (by rfl)]
  rw [filterBlocks_c1groupbody_none "restart" ts gv (by rfl) (by rfl)]
  rw [filterBlocks_c1groupbody_none "spread" ts gv (by rfl) (by rfl)]
  rw [filterBlocks_c1groupbody_none "reschedule" ts gv (by rfl) (by rfl)]
  rw [filterBlocks_c1groupbody_none "ephemeral_disk" ts gv (by rfl) (by rfl)]
  rw [filterBlocks_c1groupbody_none "update" ts gv (by rfl) (by rfl)]
  rw [filterBlocks_c1groupbody_none "migrate" ts gv (by rfl) (by rfl)]
  rw [filterBlocks_c1groupbody_none "meta" ts gv (by rfl) (by rfl)]
  rw [filterBlocks_c1groupbody_task ts gv]
  rw [filterBlocks_c1groupbody_vault ts gv]
  cases ts with
  | nil =>
    cases gv with
    | none => simp [vaultStripped, wrapErr, c1GroupTask_none_fun]
    | some gps => simp [vaultStripped, wrapErr, parseVault_policies, pushVault,
                        c1GroupTask_none_fun]
  | cons t rest =>
    simp only [List.map_cons]
    rw [← List.map_cons (fun t => ([t.1], c1TaskBody t.2)) t rest]
    simp only [parseTasks]
    rw [childrenItems_c1tasks (t :: rest)]
    rw [parseTasksList_c1 (t :: rest) jn gn [] ht (fun t2 ht2 => rfl)]
    cases gv with
    | none =>
      simp only [vaultStripped, wrapErr, PRes.monad_bind_ok, PRes.pure_eq_ok, PRes.bind_ok,
                 PRes.ok.injEq, List.map_cons]
      rw [c1GroupTask_none_fun]
    | some gps =>
      simp only [vaultStripped, wrapErr, PRes.monad_bind_ok, PRes.pure_eq_ok, PRes.bind_ok]
      rw [parseVault_policies]
      simp only [PRes.monad_bind_ok, PRes.pure_eq_ok, PRes.bind_ok, PRes.ok.injEq]
      rw [pushVault_c1 gps (t :: rest)]
      simp


theorem parseGroupsList_c1 :
    ∀ (gs : List GSpec) (jn : String) (seen : List String),
      ((gs.map fun g => g.1).Pairwise (· ≠ ·)) →
      (∀ g ∈ gs, seen.contains g.1 = false) →
      (∀ g ∈ gs, ((g.2.2).map fun t => t.1).Pairwise (· ≠ ·)) →
      parseGroupsList jn (gs.map fun g => ([g.1], c1GroupBody g)) seen = .ok (gs.map c1PreGroup) := by
  intro gs
  induction gs with
  | nil => intro jn seen hpw hseen htasks; rfl
  | cons g rest ih =>
    intro jn seen hpw hseen htasks
    simp only [List.map_cons, parseGroupsList]
    rw [if_neg (by rw [hseen g (List.mem_cons_self g rest)]; simp)]
    simp only [c1GroupBody]
    rw [parseOneGroup_c1 jn g (htasks g (List.mem_cons_self g rest))]
    have hpw2 := List.Pairwise.of_cons hpw
    have hhead : ∀ y ∈ rest.map (fun g => g.1), g.1 ≠ y := (List.pairwise_cons.mp hpw).1
    have hseen2 : ∀ g2 ∈ rest, (g.1 :: seen).contains g2.1 = false := by
      intro g2 hg2
      simp only [List.contains_cons, Bool.or_eq_false_iff]
      refine ⟨?_, hseen g2 (List.mem_cons_of_mem g hg2)⟩
      have : g.1 ≠ g2.1 := hhead g2.1 (List.mem_map.mpr ⟨g2, hg2, rfl⟩)
      simp [beq_eq_false_iff_ne]
      exact fun hc => this hc.symm
    have ih2 := ih jn (g.1 :: seen) hpw2 hseen2
      (fun g2 hg2 => htasks g2 (List.mem_cons_of_mem g hg2))
    simp only [c1GroupBody] at ih2
    rw [ih2]
    rfl

theorem checkHCLKeys_c1jobbody (gs : List GSpec) (jps : List String) :
    checkHCLKeys (gs.map c1GroupItem ++ [vaultBlockItem jps])
      ["all_at_once", "constraint", "affinity", "spread", "datacenters", "group", "id",
       "meta", "migrate", "name", "namespace", "parameterized", "periodic", "priority",
       "region", "reschedule", "task", "type", "update", "vault", "vault_token"] = .ok () := by
  induction gs with
  | nil => rfl
  | cons g rest ih =>
    simp only [List.map_cons, List.cons_append, checkHCLKeys, c1GroupItem]
    exact ih

theorem attrOf_c1jobbody (k : String) (gs : List GSpec) (jps : List String)
    (h : ("vault" == k) = false) :
    attrOf (gs.map c1GroupItem ++ [vaultBlockItem jps]) k = none := by
  refine List.findSome?_eq_none_iff.mpr ?_
  intro it hit
  rw [List.mem_reverse] at hit
  rcases List.mem_append.mp hit with hmem | hmem
  · obtain ⟨g, _, hg⟩ := List.mem_map.mp hmem
    rw [← hg]
    rfl
  · rcases List.mem_singleton.mp hmem with rfl
    simp only [vaultBlockItem]
    simp [h]

theorem filterBlocks_c1jobbody_none (k : String) (gs : List GSpec) (jps : List String)
    (h1 : keyMatches "group" k = false) (h2 : keyMatches "vault" k = false) :
    filterBlocks k (gs.map c1GroupItem ++ [vaultBlockItem jps]) = [] := by
  induction gs with
  | nil => simp [filterBlocks, vaultBlockItem, List.filterMap_cons, h2]
  | cons g rest ih =>
    simp only [List.map_cons, List.cons_append, filterBlocks, List.filterMap_cons,
               c1GroupItem, h1, Bool.false_eq_true, if_false, reduceIte] at ih ⊢
    exact ih

theorem filterBlocks_c1jobbody_group (gs : List GSpec) (jps : List String) :
    filterBlocks "group" (gs.map c1GroupItem ++ [vaultBlockItem jps]) =
      gs.map fun g => ([g.1], c1GroupBody g) := by
  induction gs with
  | nil => rfl
  | cons g rest ih =>
    simp only [List.map_cons, List.cons_append, filterBlocks, List.filterMap_cons,
               c1GroupItem] at ih ⊢
    rw [show keyMatches "group" "group" = true from rfl]
    simp only [if_true, reduceIte]
    rw [ih]

theorem filterBlocks_c1jobbody_vault (gs : List GSpec) (jps : List String) :
    filterBlocks "vault" (gs.map c1GroupItem ++ [vaultBlockItem jps]) =
      [([], vaultBodyNode jps)] := by
  induction gs with
  | nil => rfl
  | cons g rest ih =>
    simp only [List.map_cons, List.cons_append, filterBlocks, List.filterMap_cons,
               c1GroupItem] at ih ⊢
    rw [show keyMatches "group" "vault" = false from rfl]
    simp only [Bool.false_eq_true, if_false, reduceIte]
    exact ih

theorem childrenItems_c1groups (gs : List GSpec) :
    childrenItems (gs.map fun g => ([g.1], c1GroupBody g)) =
      gs.map fun g => ([g.1], c1GroupBody g) := by
  induction gs with
  | nil => rfl
  | cons g rest ih =>
    simp only [List.map_cons, childrenItems, List.filter_cons] at ih ⊢
    rw [ih]
    rfl

theorem cascade_c1 (jps : List String) (gs : List GSpec) :
    (gs.map c1PreGroup).map
        (fun tg => { tg with Tasks := pushVault (mkVaultPolicies jps) tg.Tasks }) =
      gs.map (c1ExpectedGroup jps) := by
  simp only [List.map_map]
  refine List.map_congr_left ?_
  intro g _
  obtain ⟨gn, gv, ts⟩ := g
  simp only [Function.comp, c1PreGroup, c1ExpectedGroup]
  have : pushVault (mkVaultPolicies jps) (ts.map (c1GroupTask gv)) =
      ts.map (c1ExpectedTask jps gv) := by
    simp only [pushVault, List.map_map]
    refine List.map_congr_left ?_
    intro t _
    obtain ⟨nm, v⟩ := t
    cases v <;> cases gv <;> rfl
  rw [this]


theorem parseJob_c1 (jps : List String) (gs : List GSpec)
    (hg : (gs.map fun g => g.1).Pairwise (· ≠ ·))
    (ht : ∀ g ∈ gs, ((g.2.2).map fun t => t.1).Pairwise (· ≠ ·)) :
    parseJob [(["j"], Node.obj (gs.map c1GroupItem ++ [vaultBlockItem jps]))] =
      .ok (c1Expected jps gs) := by
  simp only [parseJob]
  rw [show childrenItems [(["j"], Node.obj (gs.map c1GroupItem ++ [vaultBlockItem jps]))] =
      [(["j"], Node.obj (gs.map c1GroupItem ++ [vaultBlockItem jps]))] from rfl]
  simp only [List.length_cons, List.length_nil, show (0 + 1 != 1) = false from rfl,
             Bool.false_eq_true, if_false, reduceIte, itemsHead, PRes.monad_bind_ok]
  simp only [plainStr, optStr, optInt, optBool, optStrList]
  rw [attrOf_c1jobbody "id" gs jps (by rfl)]
  rw [attrOf_c1jobbody "name" gs jps (by rfl)]
  rw [attrOf_c1jobbody "region" gs jps (by rfl)]
  rw [attrOf_c1jobbody "namespace" gs jps (by rfl)]
  rw [attrOf_c1jobbody "type" gs jps (by rfl)]
  rw [attrOf_c1jobbody "priority" gs jps (by rfl)]
  rw [attrOf_c1jobbody "all_at_once" gs jps (by rfl)]
  rw [attrOf_c1jobbody "datacenters" gs jps (by rfl)]
  rw [attrOf_c1jobbody "vault_token" gs jps (by rfl)]
  rw [checkHCLKeys_c1jobbody gs jps]
  rw [filterBlocks_c1jobbody_none "constraint" gs jps (by rfl) (by rfl)]
  rw [filterBlocks_c1jobbody_none "affinity" gs jps (by rfl) (by rfl)]
  rw [filterBlocks_c1jobbody_none "update" gs jps (by rfl) (by rfl)]
  rw [filterBlocks_c1jobbody_none "periodic" gs jps (by rfl) (by rfl)]
  rw [filterBlocks_c1jobbody_none "spread" gs jps (by rfl) (by rfl)]
  rw [filterBlocks_c1jobbody_none "parameterized" gs jps (by rfl) (by rfl)]
  rw [filterBlocks_c1jobbody_none "reschedule" gs jps (by rfl) (by rfl)]
  rw [filterBlocks_c1jobbody_none "migrate" gs jps (by rfl) (by rfl)]
  rw [filterBlocks_c1jobbody_none "meta" gs jps (by rfl) (by rfl)]
  rw [filterBlocks_c1jobbody_none "task" gs jps (by rfl) (by rfl)]
  rw [filterBlocks_c1jobbody_group gs jps]
  rw [filterBlocks_c1jobbody_vault gs jps]
  simp only [wrapErr, PRes.monad_bind_ok, PRes.bind_ok, PRes.pure_eq_ok]
  cases gs with
  | nil =>
    rw [parseVault_policies]
    simp [c1Expected]
  | cons g rest =>
    simp only [List.map_cons, parseGroups]
    rw [← List.map_cons (fun g => ([g.1], c1GroupBody g)) g rest]
    rw [childrenItems_c1groups (g :: rest)]
    rw [parseGroupsList_c1 (g :: rest) "j" [] hg (fun g2 hg2 => rfl) ht]
    simp only [wrapErr, PRes.monad_bind_ok, PRes.bind_ok, PRes.pure_eq_ok]
    rw [parseVault_policies]
    simp only [PRes.monad_bind_ok, PRes.bind_ok, PRes.pure_eq_ok, List.nil_append]
    rw [cascade_c1 jps (g :: rest)]
    simp [c1Expected]


/-- C1: for every job of the parametric family (a job-level vault block
with arbitrary policies, arbitrarily many groups each optionally declaring
a group vault block, each with arbitrarily many tasks optionally declaring
their own vault block), the transform succeeds and the resolved job-level
vault configuration cascades to every task that declares no vault block in
a group that declares none, verbatim including the defaulted env true and
change_mode restart; a task declaring its own vault block keeps it
unaffected, and a group declaring one shields its tasks with the group
configuration instead. -/
theorem c1_vault_cascade (jps : List String) (gs : List GSpec)
    (hg : (gs.map fun g => g.1).Pairwise (· ≠ ·))
    (ht : ∀ g ∈ gs, ((g.2.2).map fun t => t.1).Pairwise (· ≠ ·)) :
    Parse (c1JobInput jps gs) = .ok (c1Expected jps gs) := by
  simp only [Parse, c1JobInput]
  rw [show checkHCLKeys [(["job", "j"],
        Node.obj (gs.map c1GroupItem ++ [vaultBlockItem jps]))] ["job"] = .ok () from rfl]
  simp only [PRes.monad_bind_ok]
  rw [show filterBlocks "job" [(["job", "j"],
        Node.obj (gs.map c1GroupItem ++ [vaultBlockItem jps]))] =
      [(["j"], Node.obj (gs.map c1GroupItem ++ [vaultBlockItem jps]))] from rfl]
  simp only [List.isEmpty_cons, Bool.false_eq_true, if_false, reduceIte]
  rw [parseJob_c1 jps gs hg ht]

theorem c1_vault_cascade_witness :
    Parse (c1JobInput ["p"] [("g", none, [("a", none), ("b", some ["q1", "q2"])])]) =
      .ok (c1Expected ["p"] [("g", none, [("a", none), ("b", some ["q1", "q2"])])]) :=
  c1_vault_cascade ["p"] [("g", none, [("a", none), ("b", some ["q1", "q2"])])]
    (by simp) (by simp)


end Jobspec
